import Mathlib

/-!
# Verification of the cloudsplaining authorization-details core

A shallow embedding, in Lean 4, of `cloudsplaining/scan/authorization_details.py`:
the managed-policy classifier, the group-membership resolver, the scan engine
(`missing_resource_constraints`, `scan_policy_details`, `scan_principal_type_details`),
the principal-policy mapping builder, and the exclusion-aware mapping filter
(`PrincipalPolicyMapping.get_post_exclusion_principal_policy_mapping`).

Python strings become `String`, Python lists become `List`, the in-place mutation of
`self.findings` and of `principal.members` becomes explicit state passing, and the
`isinstance(exclusions, Exclusions)` guard becomes a sum type `ExclusionsArg` with the
guarded operations returning `Except`.

Components of the repository that `authorization_details.py` imports but whose source
is not part of this development (the `Exclusions` provider, the Finding containers, the
`PrincipalDetail` entity model, the per-statement evaluator) are modelled from the spec,
each at its interface boundary; every such definition carries a doc comment saying so.
-/

namespace Cloudsplaining

/-- Models Python's substring test `needle in hay` on strings. -/
def strContains (hay needle : String) : Bool := decide (needle.toList <:+: hay.toList)

/-- Models Python's `str.lower()`, character by character.  (Defined over the
character list so that it reduces by kernel computation; extensionally it is
`String.toLower`.) -/
def pyLower (s : String) : String := ⟨s.data.map Char.toLower⟩

/-- The AWS-managed ARN path segment tested throughout the source:
`"arn:aws:iam::aws:" in arn`. -/
def awsSegment : String := "arn:aws:iam::aws:"

/-- Models Python's `list(dict.fromkeys(l))`: deduplication keeping the first
occurrence of each element, preserving insertion order.  The `seen` accumulator
holds the elements already emitted. -/
def pyDedupGo (seen : List String) : List String → List String
  | [] => []
  | x :: xs => if x ∈ seen then pyDedupGo seen xs else x :: pyDedupGo (x :: seen) xs

/-- `list(dict.fromkeys(l))` — first-occurrence order-preserving deduplication. -/
def pyDedup (l : List String) : List String := pyDedupGo [] l

/-- Models Python's `list.sort()` on strings: lexicographic (code-point) order. -/
def pySortStr (l : List String) : List String := List.insertionSort (· ≤ ·) l

/-- Modelled from the spec: a policy statement as seen through the external
Statement Evaluator's interface (§6).  `effect` is the statement's `Effect`;
`mrcModify` and `mrcAll` are the (pure, deterministic) results the evaluator
returns for `missing_resource_constraints_for_modify_actions(exclusions)` and
`missing_resource_constraints(exclusions)` under the ambient exclusions — the
scan always passes the same `exclusions` value to every evaluator call of one run,
so fixing the results per statement is faithful for the claims considered here. -/
structure Statement where
  effect : String
  mrcModify : List String
  mrcAll : List String
deriving DecidableEq, Repr

/-- Modelled from the spec: one entry of a principal's combined `policy_list`
(the union of inline and attached policies built by the entity model):
a `PolicyName` and a parsed `PolicyDocument` (its ordered statements). -/
structure PolicyListEntry where
  PolicyName : String
  PolicyDocument : List Statement
deriving DecidableEq, Repr

/-- An `AttachedManagedPolicies` element: dict with `PolicyName` and `PolicyArn`. -/
structure AttachedManagedPolicy where
  PolicyName : String
  PolicyArn : String
deriving DecidableEq, Repr

/-- An inline policy record as read by the mapping builder (`PolicyName` key). -/
structure InlinePolicy where
  PolicyName : String
deriving DecidableEq, Repr

/-- Modelled from the spec: the `PrincipalDetail` entity (§3).  `principal_type`
carries the singular type tag ("User", "Group" or "Role") the entity model assigns;
`group_member` is the user's group-membership name list, `members` the group's
resolved member list (mutated by the resolver, hence a plain field here). -/
structure Principal where
  name : String
  arn : String
  principal_type : String
  inline_principal_policies : List InlinePolicy
  attached_managed_policies : List AttachedManagedPolicy
  policy_list : List PolicyListEntry
  group_member : List String
  members : List String
  assume_role_policy_document : String
deriving DecidableEq, Repr

/-- A standalone managed policy from the `Policies` block (`PolicyDetails`). -/
structure Policy where
  policy_name : String
  arn : String
  full_policy_path : String
  policy_document : List Statement
deriving DecidableEq, Repr

/-- Modelled from the spec: the external Exclusions provider (§6): lower-cased
membership lists `users`, `groups`, `roles`, `policies`, the boolean query
`IsPolicyExcluded(name)`, and `IsPrincipalExcluded` applied to a principal's
name and type (by name, case-insensitive, per §4.3). -/
structure Exclusions where
  users : List String
  groups : List String
  roles : List String
  policies : List String
  isPolicyExcluded : String → Bool
  isPrincipalExcluded : String → String → Bool

/-- An Exclusions value with empty lists and never-matching queries. -/
def emptyExclusions : Exclusions :=
  { users := [], groups := [], roles := [], policies := []
    isPolicyExcluded := fun _ => false
    isPrincipalExcluded := fun _ _ => false }

/-- Modelled from the spec: a `UserFinding` record, holding the constructor
arguments passed at `authorization_details.py` lines 374–382 unchanged. -/
structure UserFinding where
  policy_name : String
  arn : String
  actions : List String
  policy_document : List Statement
  attached_managed_policies : List AttachedManagedPolicy
  group_membership : List String
deriving DecidableEq, Repr

/-- Modelled from the spec: a `GroupFinding` record (constructor arguments of
lines 388–396 unchanged). -/
structure GroupFinding where
  policy_name : String
  arn : String
  actions : List String
  policy_document : List Statement
  members : List String
  attached_managed_policies : List AttachedManagedPolicy
deriving DecidableEq, Repr

/-- Modelled from the spec: a `RoleFinding` record (constructor arguments of
lines 404–412 unchanged). -/
structure RoleFinding where
  policy_name : String
  arn : String
  actions : List String
  policy_document : List Statement
  assume_role_policy_document : String
  attached_managed_policies : List AttachedManagedPolicy
deriving DecidableEq, Repr

/-- Modelled from the spec: a `PolicyFinding` record (constructor arguments of
lines 304–310 unchanged). -/
structure PolicyFinding where
  policy_name : String
  arn : String
  actions : List String
  policy_document : List Statement
deriving DecidableEq, Repr

/-- One entry of the principal-policy mapping built by the
`principal_policy_mapping` property (a Python dict with these six keys).
`GroupMembership` is `None` for a principal's own policies and the user's
`group_member` list for group-inherited entries. -/
structure MappingEntry where
  Principal : String
  /-- the dict's `Type` key (`Type` is a Lean keyword, hence the trailing prime) -/
  Type' : String
  PolicyType : String
  ManagedBy : String
  PolicyName : String
  GroupMembership : Option (List String)
deriving DecidableEq, Repr

/-- Modelled from the spec: the Findings aggregator (§6): typed lists of findings
plus the attached principal-policy mapping.  The `exclusions` value the Python
constructor stores is not part of the serialized output and is omitted. -/
structure Findings where
  users : List UserFinding
  groups : List GroupFinding
  roles : List RoleFinding
  policies : List PolicyFinding
  principal_policy_mapping : List MappingEntry
deriving DecidableEq, Repr

/-- `Findings(exclusions)` — a freshly reset aggregator. -/
def emptyFindings : Findings :=
  { users := [], groups := [], roles := [], policies := [], principal_policy_mapping := [] }

/-- Modelled from the spec: the aggregator's serializable snapshot
`{policies, users, groups, roles, principal_policy_mapping}` (§6). -/
def Findings.json (f : Findings) :
    List PolicyFinding × List UserFinding × List GroupFinding × List RoleFinding ×
      List MappingEntry :=
  (f.policies, f.users, f.groups, f.roles, f.principal_policy_mapping)

/-- The in-memory `AuthorizationDetails` state: the four detail blocks plus the
current findings aggregator (`self.findings`). -/
structure AuthorizationDetails where
  policies : List Policy
  user_detail_list : List Principal
  group_detail_list : List Principal
  role_detail_list : List Principal
  findings : Findings
deriving DecidableEq, Repr

/-- Modelled from the spec: the `AuthorizationDetails` constructor.  The entity
model (`PrincipalTypeDetails` / `PrincipalDetail`) assigns each principal of the
`UserDetailList`, `GroupDetailList` and `RoleDetailList` block its singular type
tag "User", "Group", "Role" respectively (spec §3, §9). -/
def mkAuthorizationDetails (policies : List Policy)
    (users groups roles : List Principal) : AuthorizationDetails :=
  { policies := policies
    user_detail_list := users.map fun p => { p with principal_type := "User" }
    group_detail_list := groups.map fun p => { p with principal_type := "Group" }
    role_detail_list := roles.map fun p => { p with principal_type := "Role" }
    findings := emptyFindings }

/-! ## Managed-policy classifier (`_aws_managed_policies_in_use`,
`_customer_managed_policies_in_use`, lines 51–116) -/

/-- The appends contributed by one principal's `attached_managed_policies` loop:
names whose `PolicyArn` passes the classification test `cond`. -/
def attachedLoop (cond : String → Bool) (acc : List String) (p : Principal) : List String :=
  p.attached_managed_policies.foldl
    (fun acc' ap => if cond ap.PolicyArn then acc' ++ [ap.PolicyName] else acc') acc

/-- `_aws_managed_policies_in_use` (lines 51–78): standalone policies, then
policies attached to groups, then to users, then to roles; classify by the
substring test; deduplicate keeping first occurrences at the end. -/
def awsManagedPoliciesInUse (a : AuthorizationDetails) : List String :=
  let l1 := a.policies.foldl
    (fun acc p => if strContains p.arn awsSegment then acc ++ [p.policy_name] else acc) []
  let l2 := a.group_detail_list.foldl (attachedLoop (fun arn => strContains arn awsSegment)) l1
  let l3 := a.user_detail_list.foldl (attachedLoop (fun arn => strContains arn awsSegment)) l2
  let l4 := a.role_detail_list.foldl (attachedLoop (fun arn => strContains arn awsSegment)) l3
  pyDedup l4

/-- `_customer_managed_policies_in_use` (lines 80–116): same traversal with the
negated classification test. -/
def customerManagedPoliciesInUse (a : AuthorizationDetails) : List String :=
  let l1 := a.policies.foldl
    (fun acc p => if !strContains p.arn awsSegment then acc ++ [p.policy_name] else acc) []
  let l2 := a.group_detail_list.foldl (attachedLoop (fun arn => !strContains arn awsSegment)) l1
  let l3 := a.user_detail_list.foldl (attachedLoop (fun arn => !strContains arn awsSegment)) l2
  let l4 := a.role_detail_list.foldl (attachedLoop (fun arn => !strContains arn awsSegment)) l3
  pyDedup l4

/-! ## Principal-policy mapping builder (`principal_policy_mapping`, lines 157–246) -/

/-- `self.principals` (lines 142–155): users, then groups, then roles. -/
def principalsOf (a : AuthorizationDetails) : List Principal :=
  a.user_detail_list ++ a.group_detail_list ++ a.role_detail_list

/-- The builder's inline-policy entries for one principal's own policies
(lines 166–176).  The guard `if principal.inline_principal_policies:` is Python
truthiness; an empty list yields no entries either way. -/
def ownInlineEntries (p : Principal) : List MappingEntry :=
  p.inline_principal_policies.map fun ip =>
    { Principal := p.name, Type' := p.principal_type, PolicyType := "Inline"
      ManagedBy := "Customer", PolicyName := ip.PolicyName, GroupMembership := none }

/-- The builder's attached-managed entries for one principal's own policies
(lines 178–192), tagging `ManagedBy` by the ARN substring test. -/
def ownManagedEntries (p : Principal) : List MappingEntry :=
  p.attached_managed_policies.map fun ap =>
    { Principal := p.name, Type' := p.principal_type, PolicyType := "Managed"
      ManagedBy := if strContains ap.PolicyArn awsSegment then "AWS" else "Customer"
      PolicyName := ap.PolicyName, GroupMembership := none }

/-- The group-inherited entries one matched group principal `q` contributes to
user `p` (lines 205–240): the group's inline entries then its attached-managed
entries, both tagged with the user's whole `group_member` list. -/
def inheritedFromGroup (p q : Principal) : List MappingEntry :=
  (q.inline_principal_policies.map fun ip =>
    { Principal := p.name, Type' := p.principal_type, PolicyType := "Inline"
      ManagedBy := "Customer", PolicyName := ip.PolicyName
      GroupMembership := some p.group_member }) ++
  (q.attached_managed_policies.map fun ap =>
    { Principal := p.name, Type' := p.principal_type, PolicyType := "Managed"
      ManagedBy := if strContains ap.PolicyArn awsSegment then "AWS" else "Customer"
      PolicyName := ap.PolicyName, GroupMembership := some p.group_member })

/-- The group-walk of lines 197–240: only for `principal_type == "User"`; for
each declared membership, every principal whose type is "Group" and whose name
equals the membership string **exactly** (case-sensitive `==`) contributes its
entries. -/
def groupInheritedEntries (ps : List Principal) (p : Principal) : List MappingEntry :=
  if p.principal_type == "User" then
    p.group_member.flatMap fun g =>
      ps.flatMap fun q =>
        if q.principal_type == "Group" && q.name == g then inheritedFromGroup p q else []
  else []

/-- All entries one principal contributes before sorting (lines 164–240). -/
def entriesForPrincipal (ps : List Principal) (p : Principal) : List MappingEntry :=
  ownInlineEntries p ++ ownManagedEntries p ++ groupInheritedEntries ps p

/-- The unsorted mapping accumulated by the builder's main loop. -/
def rawMapping (ps : List Principal) : List MappingEntry :=
  ps.flatMap (entriesForPrincipal ps)

/-- The sort key of lines 242–245: `itemgetter("Type", "Principal", "PolicyType",
"PolicyName")`, compared as a Python tuple, i.e. lexicographically with
code-point string comparison. -/
def keyOf (e : MappingEntry) : String ×ₗ String ×ₗ String ×ₗ String :=
  toLex (e.Type', toLex (e.Principal, toLex (e.PolicyType, e.PolicyName)))

/-- The comparison relation `sorted` uses on mapping entries. -/
def entryLE (x y : MappingEntry) : Prop := keyOf x ≤ keyOf y

instance : DecidableRel entryLE := fun x y => inferInstanceAs (Decidable (keyOf x ≤ keyOf y))

instance : IsTotal MappingEntry entryLE := ⟨fun x y => le_total (keyOf x) (keyOf y)⟩

instance : IsTrans MappingEntry entryLE := ⟨fun _ _ _ h h' => le_trans h h'⟩

instance : IsRefl MappingEntry entryLE := ⟨fun x => le_refl (keyOf x)⟩

/-- The mapping builder on a principal list: accumulate, then `sorted(...)` by the
four-part key (a stable sort, as in Python). -/
def principalPolicyMapping (ps : List Principal) : List MappingEntry :=
  List.insertionSort entryLE (rawMapping ps)

/-- The `principal_policy_mapping` property (lines 157–246). -/
def AuthorizationDetails.principalPolicyMapping (a : AuthorizationDetails) :
    List MappingEntry :=
  Cloudsplaining.principalPolicyMapping (principalsOf a)

/-! ## Scan engine (lines 248–413) -/

/-- The per-statement contribution of the loop at lines 286–298 / 357–369:
for an `Allow` statement, the evaluator's modify-only or all-actions result
according to `modify_only`; otherwise nothing. -/
def statementActions (modifyOnly : Bool) (s : Statement) : List String :=
  if modifyOnly then
    if s.effect == "Allow" then s.mrcModify else []
  else
    if s.effect == "Allow" then s.mrcAll else []

/-- `actions_missing_resource_constraints` accumulated over a policy document. -/
def accumulatedActions (modifyOnly : Bool) (doc : List Statement) : List String :=
  doc.flatMap (statementActions modifyOnly)

/-- `scan_policy_details`'s per-policy body (lines 278–311): skip excluded
policies (by name or by qualified path); accumulate Allow-statement actions;
if non-empty, deduplicate, sort, and add a `PolicyFinding`. -/
def scanPolicyStep (ex : Exclusions) (modifyOnly : Bool) (fs : Findings) (pol : Policy) :
    Findings :=
  if ex.isPolicyExcluded pol.policy_name || ex.isPolicyExcluded pol.full_policy_path then fs
  else
    let acc := accumulatedActions modifyOnly pol.policy_document
    if acc ≠ [] then
      { fs with policies := fs.policies ++
          [{ policy_name := pol.policy_name, arn := pol.arn
             actions := pySortStr (pyDedup acc), policy_document := pol.policy_document }] }
    else fs

/-- `scan_policy_details` (lines 271–311), after the `isinstance` guard. -/
def scanPolicyDetails (a : AuthorizationDetails) (ex : Exclusions) (modifyOnly : Bool) :
    Findings :=
  a.policies.foldl (scanPolicyStep ex modifyOnly) a.findings

/-- The `groups` dict built at lines 327–337: an insertion-ordered association
list from group name to accumulated member names, fed only by principals whose
`principal_type == "Users"` (sic — the plural tag). -/
def assocAppend (d : List (String × List String)) (g n : String) :
    List (String × List String) :=
  if d.any (fun kv => kv.1 == g) then
    d.map fun kv => if kv.1 == g then (kv.1, kv.2 ++ [n]) else kv
  else d ++ [(g, [n])]

/-- One principal's contribution to the `groups` dict (lines 328–337): only
principals whose `principal_type == "Users"` (the plural tag) contribute. -/
def groupsDictStep (d : List (String × List String)) (p : Principal) :
    List (String × List String) :=
  if p.principal_type == "Users" then
    p.group_member.foldl (fun d' g => assocAppend d' g p.name) d
  else d

/-- Builds the `groups` dict of lines 327–337. -/
def buildGroupsDict (ps : List Principal) : List (String × List String) :=
  ps.foldl groupsDictStep []

/-- The member-attachment loop of lines 338–343: a principal whose
`principal_type == "Groups"` (sic) extends its `members` with every dict entry
whose key matches its name case-insensitively, in dict insertion order. -/
def attachMembers (d : List (String × List String)) (p : Principal) : Principal :=
  if p.principal_type == "Groups" then
    { p with members := p.members ++
        (d.foldl (fun acc kv =>
          if pyLower kv.1 == pyLower p.name then acc ++ kv.2 else acc) []) }
  else p

/-- The group-membership resolution prologue of `scan_principal_type_details`
(lines 326–343), acting on one detail list. -/
def resolveMembers (ps : List Principal) : List Principal :=
  let d := buildGroupsDict ps
  ps.map (attachMembers d)

/-- The per-policy body of the scan loop (lines 347–413): policy exclusion is
checked before principal exclusion; accumulated Allow-statement actions, when
non-empty, are passed to the type-appropriate Finding constructor **unchanged**. -/
def scanPrincipalPolicyStep (ex : Exclusions) (modifyOnly : Bool) (p : Principal)
    (fs : Findings) (pol : PolicyListEntry) : Findings :=
  if ex.isPolicyExcluded pol.PolicyName then fs
  else if ex.isPrincipalExcluded p.name p.principal_type then fs
  else
    let acc := accumulatedActions modifyOnly pol.PolicyDocument
    if acc ≠ [] then
      if p.principal_type == "User" then
        { fs with users := fs.users ++
            [{ policy_name := pol.PolicyName, arn := p.arn, actions := acc
               policy_document := pol.PolicyDocument
               attached_managed_policies := p.attached_managed_policies
               group_membership := p.group_member }] }
      else if p.principal_type == "Group" then
        { fs with groups := fs.groups ++
            [{ policy_name := pol.PolicyName, arn := p.arn, actions := acc
               policy_document := pol.PolicyDocument, members := p.members
               attached_managed_policies := p.attached_managed_policies }] }
      else if p.principal_type == "Role" then
        { fs with roles := fs.roles ++
            [{ policy_name := pol.PolicyName, arn := p.arn, actions := acc
               policy_document := pol.PolicyDocument
               assume_role_policy_document := p.assume_role_policy_document
               attached_managed_policies := p.attached_managed_policies }] }
      else fs
    else fs

/-- The scan loop over one principal's `policy_list` (lines 344–413). -/
def scanOnePrincipal (ex : Exclusions) (modifyOnly : Bool) (fs : Findings)
    (p : Principal) : Findings :=
  p.policy_list.foldl (scanPrincipalPolicyStep ex modifyOnly p) fs

/-- `scan_principal_type_details` (lines 313–413), after the `isinstance` guard:
resolve members on the list (in-place mutation, returned here as the updated
list), then scan every principal, threading the findings aggregator. -/
def scanPrincipalTypeDetails (fs : Findings) (ps : List Principal) (ex : Exclusions)
    (modifyOnly : Bool) : Findings × List Principal :=
  let ps' := resolveMembers ps
  (ps'.foldl (scanOnePrincipal ex modifyOnly) fs, ps')

/-- `missing_resource_constraints` (lines 248–269), after the `isinstance` guard:
reset the aggregator, scan users, groups, roles, attach the principal-policy
mapping (computed on the post-resolution state), scan the standalone policies,
and return the updated object state together with `self.findings.json`. -/
def missingResourceConstraints (a : AuthorizationDetails) (ex : Exclusions)
    (modifyOnly : Bool) :
    AuthorizationDetails ×
      (List PolicyFinding × List UserFinding × List GroupFinding × List RoleFinding ×
        List MappingEntry) :=
  let fs0 := emptyFindings
  let r1 := scanPrincipalTypeDetails fs0 a.user_detail_list ex modifyOnly
  let r2 := scanPrincipalTypeDetails r1.1 a.group_detail_list ex modifyOnly
  let r3 := scanPrincipalTypeDetails r2.1 a.role_detail_list ex modifyOnly
  let a' := { a with user_detail_list := r1.2, group_detail_list := r2.2
                     role_detail_list := r3.2 }
  let fs4 := { r3.1 with principal_policy_mapping := a'.principalPolicyMapping }
  let a'' := { a' with findings := fs4 }
  let fs5 := scanPolicyDetails a'' ex modifyOnly
  ({ a'' with findings := fs5 }, fs5.json)

/-! ## The `PrincipalPolicyMapping` class and its exclusion filter
(lines 416–524) -/

/-- A `PrincipalPolicyMappingEntry` (lines 527–558).  `comment` is an optional
list of group names; Python's `None` and `[]` are both falsy and are used
interchangeably by every consumer (`if entry.comment:`), so both are modelled
as the empty list. -/
structure PPMEntry where
  principal_name : String
  principal_type : String
  policy_type : String
  managed_by : String
  policy_name : String
  comment : List String
deriving DecidableEq, Repr

/-- A `PrincipalPolicyMapping`: its ordered `entries` list. -/
structure PPM where
  entries : List PPMEntry
deriving DecidableEq, Repr

/-- The `users` property (lines 459–466): entries with `principal_type == "User"`. -/
def PPM.users (m : PPM) : List PPMEntry :=
  m.entries.filter fun e => e.principal_type == "User"

/-- The `groups` property (lines 468–475). -/
def PPM.groups (m : PPM) : List PPMEntry :=
  m.entries.filter fun e => e.principal_type == "Group"

/-- The `roles` property (lines 477–484). -/
def PPM.roles (m : PPM) : List PPMEntry :=
  m.entries.filter fun e => e.principal_type == "Role"

/-- The per-user-entry body of the user stage (lines 496–503): when neither the
user's lower-cased name nor the policy's lower-cased name is excluded and the
entry's `comment` is truthy, the entry is appended once per comment group whose
lower-cased name is not excluded. -/
def userFun (ex : Exclusions) (e : PPMEntry) : List PPMEntry :=
  if pyLower e.principal_name ∈ ex.users then []
  else if pyLower e.policy_name ∈ ex.policies then []
  else if e.comment ≠ [] then
    e.comment.flatMap fun g => if pyLower g ∈ ex.groups then [] else [e]
  else []

/-- The user stage of `get_post_exclusion_principal_policy_mapping`
(lines 494–503). -/
def userStage (ex : Exclusions) (m : PPM) : List PPMEntry :=
  m.users.flatMap (userFun ex)

/-- The `non_excluded_groups` list recomputed inside the group stage
(lines 510–516): the lower-cased comment entries of every entry currently in
the filtered mapping. -/
def nonExcludedGroups (acc : List PPMEntry) : List String :=
  acc.flatMap fun e => if e.comment ≠ [] then e.comment.map pyLower else []

/-- One iteration of the group stage (lines 504–519): a group entry is appended
when its name and policy are not excluded and its lower-cased name occurs in
`nonExcludedGroups` of the accumulator *at that moment*. -/
def groupStep (ex : Exclusions) (acc : List PPMEntry) (e : PPMEntry) : List PPMEntry :=
  if pyLower e.principal_name ∈ ex.groups then acc
  else if pyLower e.policy_name ∈ ex.policies then acc
  else if pyLower e.principal_name ∈ nonExcludedGroups acc then acc ++ [e]
  else acc

/-- One iteration of the role stage (lines 520–523). -/
def roleStep (ex : Exclusions) (acc : List PPMEntry) (e : PPMEntry) : List PPMEntry :=
  if pyLower e.principal_name ∈ ex.roles then acc
  else if pyLower e.policy_name ∈ ex.policies then acc
  else acc ++ [e]

/-- `get_post_exclusion_principal_policy_mapping` (lines 486–524), after the
`isinstance` guard: user stage, then group stage, then role stage, all appending
to the same fresh `PrincipalPolicyMapping`. -/
def getPostExclusionPrincipalPolicyMapping (m : PPM) (ex : Exclusions) : PPM :=
  { entries := m.roles.foldl (roleStep ex) (m.groups.foldl (groupStep ex) (userStage ex m)) }

/-! ## The `isinstance(exclusions, Exclusions)` guards -/

/-- An argument passed where an `Exclusions` object is expected: either an
actual `Exclusions` value or some other Python value (modelled by a tag). -/
inductive ExclusionsArg where
  | valid (ex : Exclusions)
  | invalid (tag : String)

/-- Whether the argument would pass `isinstance(exclusions, Exclusions)`. -/
def ExclusionsArg.isExclusions : ExclusionsArg → Bool
  | .valid _ => true
  | .invalid _ => false

/-- `missing_resource_constraints` with its guard (lines 248–257): a
non-`Exclusions` argument raises before any scanning or state mutation. -/
def missingResourceConstraintsChecked (a : AuthorizationDetails) (arg : ExclusionsArg)
    (modifyOnly : Bool) :
    Except String
      (AuthorizationDetails ×
        (List PolicyFinding × List UserFinding × List GroupFinding × List RoleFinding ×
          List MappingEntry)) :=
  match arg with
  | .invalid _ => .error "The provided exclusions is not the Exclusions object type."
  | .valid ex => .ok (missingResourceConstraints a ex modifyOnly)

/-- `scan_policy_details` with its guard (lines 271–277). -/
def scanPolicyDetailsChecked (a : AuthorizationDetails) (arg : ExclusionsArg)
    (modifyOnly : Bool) : Except String Findings :=
  match arg with
  | .invalid _ => .error "The provided exclusions is not the Exclusions object type."
  | .valid ex => .ok (scanPolicyDetails a ex modifyOnly)

/-- `scan_principal_type_details` with its guard (lines 313–325). -/
def scanPrincipalTypeDetailsChecked (fs : Findings) (ps : List Principal)
    (arg : ExclusionsArg) (modifyOnly : Bool) :
    Except String (Findings × List Principal) :=
  match arg with
  | .invalid _ => .error "The provided exclusions is not the Exclusions object type."
  | .valid ex => .ok (scanPrincipalTypeDetails fs ps ex modifyOnly)

/-- `get_post_exclusion_principal_policy_mapping` with its guard
(lines 486–492). -/
def getPostExclusionChecked (m : PPM) (arg : ExclusionsArg) : Except String PPM :=
  match arg with
  | .invalid _ => .error "The exclusions provided is not an Exclusions type object."
  | .valid ex => .ok (getPostExclusionPrincipalPolicyMapping m ex)

/-! ## Lemmas about the exclusion-aware mapping filter -/

/-- The survival condition of the user stage. -/
def userCond (ex : Exclusions) (e : PPMEntry) : Prop :=
  pyLower e.principal_name ∉ ex.users ∧ pyLower e.policy_name ∉ ex.policies ∧
    ∃ g ∈ e.comment, pyLower g ∉ ex.groups

instance (ex : Exclusions) (e : PPMEntry) : Decidable (userCond ex e) := by
  unfold userCond; infer_instance

theorem mem_userStage (ex : Exclusions) (m : PPM) (e : PPMEntry) :
    e ∈ userStage ex m ↔ e ∈ m.users ∧ userCond ex e := by
  simp only [userStage, userFun, List.mem_flatMap]
  constructor
  · rintro ⟨x, hx, he⟩
    split_ifs at he with h1 h2 h3
    · simp at he
    · simp at he
    · rw [List.mem_flatMap] at he
      obtain ⟨g, hg, he⟩ := he
      split_ifs at he with h4
      · simp at he
      · simp only [List.mem_singleton] at he
        subst he
        exact ⟨hx, h1, h2, g, hg, h4⟩
    · simp at he
  · rintro ⟨hx, h1, h2, g, hg, h4⟩
    refine ⟨e, hx, ?_⟩
    rw [if_neg h1, if_neg h2, if_pos (by intro h; rw [h] at hg; exact absurd hg (List.not_mem_nil g))]
    rw [List.mem_flatMap]
    exact ⟨g, hg, by rw [if_neg h4]; exact List.mem_singleton.mpr rfl⟩

theorem userStage_types (ex : Exclusions) (m : PPM) (e : PPMEntry)
    (he : e ∈ userStage ex m) : e.principal_type = "User" := by
  rcases (mem_userStage ex m e).1 he with ⟨hu, -⟩
  have := List.of_mem_filter hu
  simpa using this

/-- `groupStep` either keeps the accumulator or appends the current entry. -/
theorem groupStep_cases (ex : Exclusions) (acc : List PPMEntry) (e : PPMEntry) :
    groupStep ex acc e = acc ∨ groupStep ex acc e = acc ++ [e] := by
  unfold groupStep
  split_ifs <;> simp

/-- `roleStep` either keeps the accumulator or appends the current entry. -/
theorem roleStep_cases (ex : Exclusions) (acc : List PPMEntry) (e : PPMEntry) :
    roleStep ex acc e = acc ∨ roleStep ex acc e = acc ++ [e] := by
  unfold roleStep
  split_ifs <;> simp

/-- A fold whose step keeps or appends only appends elements of the iterated list. -/
theorem appendFold_shape (step : List PPMEntry → PPMEntry → List PPMEntry)
    (hstep : ∀ acc e, step acc e = acc ∨ step acc e = acc ++ [e]) :
    ∀ (l acc : List PPMEntry), ∃ gs, l.foldl step acc = acc ++ gs ∧
      ∀ x ∈ gs, x ∈ l := by
  intro l
  induction l with
  | nil => exact fun acc => ⟨[], by simp⟩
  | cons e l ih =>
    intro acc
    show ∃ gs, l.foldl step (step acc e) = acc ++ gs ∧ _
    rcases hstep acc e with h | h
    · rw [h]
      obtain ⟨gs, hgs, hsub⟩ := ih acc
      exact ⟨gs, hgs, fun x hx => List.mem_cons_of_mem e (hsub x hx)⟩
    · rw [h]
      obtain ⟨gs, hgs, hsub⟩ := ih (acc ++ [e])
      refine ⟨e :: gs, by rw [hgs]; simp, ?_⟩
      intro x hx
      rcases List.mem_cons.1 hx with h' | h'
      · exact h' ▸ List.mem_cons_self e l
      · exact List.mem_cons_of_mem e (hsub x h')

theorem mem_groups_type (m : PPM) (x : PPMEntry) (hx : x ∈ m.groups) :
    x.principal_type = "Group" := by
  have := List.of_mem_filter hx
  simpa using this

theorem mem_roles_type (m : PPM) (x : PPMEntry) (hx : x ∈ m.roles) :
    x.principal_type = "Role" := by
  have := List.of_mem_filter hx
  simpa using this

/-- A user-typed entry survives the whole filter iff it survives the user stage. -/
theorem mem_filtered_user (m : PPM) (ex : Exclusions) (e : PPMEntry)
    (ht : e.principal_type = "User") :
    e ∈ (getPostExclusionPrincipalPolicyMapping m ex).entries ↔ e ∈ userStage ex m := by
  unfold getPostExclusionPrincipalPolicyMapping
  obtain ⟨gs, hgs, hgsub⟩ :=
    appendFold_shape (groupStep ex) (groupStep_cases ex) m.groups (userStage ex m)
  rw [hgs]
  obtain ⟨rs, hrs, hrsub⟩ :=
    appendFold_shape (roleStep ex) (roleStep_cases ex) m.roles (userStage ex m ++ gs)
  rw [hrs]
  simp only [List.mem_append]
  constructor
  · rintro ((h | h) | h)
    · exact h
    · exact absurd (mem_groups_type m e (hgsub e h)) (by rw [ht]; decide)
    · exact absurd (mem_roles_type m e (hrsub e h)) (by rw [ht]; decide)
  · exact fun h => Or.inl (Or.inl h)

/-- C1: a User entry appears in the output of
`get_post_exclusion_principal_policy_mapping` iff its lower-cased user name is
not in the excluded-users set, its lower-cased policy name is not in the
excluded-policies set, and its comment contains at least one group whose
lower-cased name is not in the excluded-groups set; in particular an entry with
an empty or absent comment is never emitted by this rule. -/
theorem claim_C1 (m : PPM) (ex : Exclusions) (e : PPMEntry)
    (ht : e.principal_type = "User") (he : e ∈ m.entries) :
    e ∈ (getPostExclusionPrincipalPolicyMapping m ex).entries ↔
      (pyLower e.principal_name ∉ ex.users ∧ pyLower e.policy_name ∉ ex.policies ∧
        ∃ g ∈ e.comment, pyLower g ∉ ex.groups) := by
  rw [mem_filtered_user m ex e ht, mem_userStage]
  have hu : e ∈ m.users := List.mem_filter.2 ⟨he, by simp [ht]⟩
  unfold userCond
  tauto

/-- C1 witness: a concrete user entry with one non-excluded comment group
survives the filter. -/
theorem claim_C1_witness :
    (⟨"u", "User", "Inline", "Customer", "p", ["g1"]⟩ : PPMEntry) ∈
      (getPostExclusionPrincipalPolicyMapping
        ⟨[⟨"u", "User", "Inline", "Customer", "p", ["g1"]⟩]⟩
        { emptyExclusions with users := ["other"] }).entries :=
  (claim_C1 ⟨[⟨"u", "User", "Inline", "Customer", "p", ["g1"]⟩]⟩
      { emptyExclusions with users := ["other"] }
      ⟨"u", "User", "Inline", "Customer", "p", ["g1"]⟩ (by decide)
      (by decide)).2
    (by refine ⟨by decide, by decide, "g1", by decide, by decide⟩)

theorem userFun_self (ex : Exclusions) (x : PPMEntry) :
    ∀ y ∈ userFun ex x, y = x := by
  intro y hy
  unfold userFun at hy
  split_ifs at hy with h1 h2 h3
  · simp at hy
  · simp at hy
  · rw [List.mem_flatMap] at hy
    obtain ⟨g, -, hy⟩ := hy
    split_ifs at hy
    · simp at hy
    · simpa using hy
  · simp at hy

theorem length_flatMap_if (e : PPMEntry) (S : List String) :
    ∀ c : List String,
      (c.flatMap fun g => if pyLower g ∈ S then [] else [e]).length =
        (c.filter fun g => pyLower g ∉ S).length := by
  intro c
  induction c with
  | nil => rfl
  | cons g c ih =>
    rw [List.flatMap_cons, List.filter_cons, List.length_append, ih]
    by_cases h : pyLower g ∈ S
    · rw [if_pos h]
      simp [h]
    · rw [if_neg h, if_pos (by simp [h] : decide (pyLower g ∉ S) = true)]
      simp [Nat.add_comm]

theorem length_userFun (ex : Exclusions) (e : PPMEntry)
    (hu : pyLower e.principal_name ∉ ex.users)
    (hp : pyLower e.policy_name ∉ ex.policies) :
    (userFun ex e).length = (e.comment.filter fun g => pyLower g ∉ ex.groups).length := by
  unfold userFun
  rw [if_neg hu, if_neg hp]
  by_cases hc : e.comment = []
  · rw [if_neg (by simp [hc]), hc]
    rfl
  · rw [if_pos hc, length_flatMap_if]

theorem count_flatMap_self (l : List PPMEntry) (f : PPMEntry → List PPMEntry)
    (e : PPMEntry) (hf : ∀ x, ∀ y ∈ f x, y = x) :
    (l.flatMap f).count e = l.count e * (f e).length := by
  induction l with
  | nil => simp
  | cons x xs ih =>
    rw [List.flatMap_cons, List.count_append, ih, List.count_cons]
    by_cases hx : e = x
    · subst hx
      rw [List.count_eq_length.2 fun b hb => (hf e b hb).symm]
      simp [Nat.add_mul]
      exact Nat.add_comm _ _
    · rw [List.count_eq_zero_of_not_mem fun h => hx (hf x e h)]
      have hbx : (x == e) = false := by
        simp only [beq_eq_false_iff_ne, ne_eq]
        exact fun h => hx h.symm
      rw [hbx]
      simp

/-- C9: a User entry whose user name and policy name are not excluded is
appended once per comment group absent from the excluded-groups set; its
multiplicity in the filtered output is its multiplicity in the input times the
number of non-excluded groups in its comment. -/
theorem claim_C9 (m : PPM) (ex : Exclusions) (e : PPMEntry)
    (ht : e.principal_type = "User")
    (hu : pyLower e.principal_name ∉ ex.users)
    (hp : pyLower e.policy_name ∉ ex.policies) :
    ((getPostExclusionPrincipalPolicyMapping m ex).entries).count e =
      m.entries.count e * (e.comment.filter fun g => pyLower g ∉ ex.groups).length := by
  unfold getPostExclusionPrincipalPolicyMapping
  obtain ⟨gs, hgs, hgsub⟩ :=
    appendFold_shape (groupStep ex) (groupStep_cases ex) m.groups (userStage ex m)
  rw [hgs]
  obtain ⟨rs, hrs, hrsub⟩ :=
    appendFold_shape (roleStep ex) (roleStep_cases ex) m.roles (userStage ex m ++ gs)
  rw [hrs]
  have hgz : gs.count e = 0 := List.count_eq_zero_of_not_mem fun h =>
    absurd (mem_groups_type m e (hgsub e h)) (by rw [ht]; decide)
  have hrz : rs.count e = 0 := List.count_eq_zero_of_not_mem fun h =>
    absurd (mem_roles_type m e (hrsub e h)) (by rw [ht]; decide)
  rw [List.count_append, List.count_append, hgz, hrz]
  have hus : (userStage ex m).count e = m.users.count e * (userFun ex e).length :=
    count_flatMap_self m.users (userFun ex) e (userFun_self ex)
  have hcnt : m.users.count e = m.entries.count e := by
    unfold PPM.users
    exact List.count_filter (by simp [ht])
  rw [hus, hcnt, length_userFun ex e hu hp]
  simp

/-- C9 witness: an entry occurring once whose comment has two non-excluded
groups appears exactly twice in the filtered output. -/
theorem claim_C9_witness :
    ((getPostExclusionPrincipalPolicyMapping
        ⟨[⟨"u", "User", "Inline", "Customer", "p", ["g1", "g2"]⟩]⟩
        emptyExclusions).entries).count
      ⟨"u", "User", "Inline", "Customer", "p", ["g1", "g2"]⟩ = 2 := by
  rw [claim_C9 ⟨[⟨"u", "User", "Inline", "Customer", "p", ["g1", "g2"]⟩]⟩
      emptyExclusions ⟨"u", "User", "Inline", "Customer", "p", ["g1", "g2"]⟩
      (by decide) (by decide) (by decide)]
  decide

theorem nonExcludedGroups_append (a b : List PPMEntry) :
    nonExcludedGroups (a ++ b) = nonExcludedGroups a ++ nonExcludedGroups b := by
  unfold nonExcludedGroups
  exact List.flatMap_append a b _

theorem mem_nonExcludedGroups (acc : List PPMEntry) (s : String) :
    s ∈ nonExcludedGroups acc ↔ ∃ x ∈ acc, ∃ g ∈ x.comment, pyLower g = s := by
  unfold nonExcludedGroups
  rw [List.mem_flatMap]
  constructor
  · rintro ⟨x, hx, hs⟩
    split_ifs at hs with h
    · rw [List.mem_map] at hs
      obtain ⟨g, hg, hgs⟩ := hs
      exact ⟨x, hx, g, hg, hgs⟩
    · simp at hs
  · rintro ⟨x, hx, g, hg, hgs⟩
    refine ⟨x, hx, ?_⟩
    rw [if_pos (by intro h; rw [h] at hg; exact absurd hg (List.not_mem_nil g)),
      List.mem_map]
    exact ⟨g, hg, hgs⟩

/-- The group-survival test of the group stage, with the non-excluded-groups
pool `N` made explicit. -/
def survivesGroup (ex : Exclusions) (N : List String) (x : PPMEntry) : Bool :=
  decide (pyLower x.principal_name ∉ ex.groups ∧ pyLower x.policy_name ∉ ex.policies ∧
    pyLower x.principal_name ∈ N)

/-- When every iterated group entry carries an empty comment, the group-stage
fold reduces to a filter against the fixed non-excluded-groups pool of the
initial accumulator. -/
theorem groupFold_const (ex : Exclusions) :
    ∀ (l acc : List PPMEntry) (N : List String), nonExcludedGroups acc = N →
      (∀ x ∈ l, x.comment = []) →
      l.foldl (groupStep ex) acc = acc ++ l.filter (survivesGroup ex N) := by
  intro l
  induction l with
  | nil => intro acc N _ _; simp
  | cons e l ih =>
    intro acc N hN hc
    have hce : e.comment = [] := hc e (List.mem_cons_self e l)
    have hctail : ∀ x ∈ l, x.comment = [] := fun x hx => hc x (List.mem_cons_of_mem e hx)
    show l.foldl (groupStep ex) (groupStep ex acc e) = _
    by_cases h1 : pyLower e.principal_name ∈ ex.groups
    · have hstep : groupStep ex acc e = acc := by unfold groupStep; rw [if_pos h1]
      have hpred : survivesGroup ex N e = false := by
        simp [survivesGroup, h1]
      rw [hstep, List.filter_cons, hpred, if_neg (by simp)]
      exact ih acc N hN hctail
    · by_cases h2 : pyLower e.policy_name ∈ ex.policies
      · have hstep : groupStep ex acc e = acc := by
          unfold groupStep; rw [if_neg h1, if_pos h2]
        have hpred : survivesGroup ex N e = false := by
          simp [survivesGroup, h2]
        rw [hstep, List.filter_cons, hpred, if_neg (by simp)]
        exact ih acc N hN hctail
      · by_cases h3 : pyLower e.principal_name ∈ nonExcludedGroups acc
        · have hstep : groupStep ex acc e = acc ++ [e] := by
            unfold groupStep; rw [if_neg h1, if_neg h2, if_pos h3]
          have hpred : survivesGroup ex N e = true := by
            simp [survivesGroup, h1, h2, hN ▸ h3]
          have hN' : nonExcludedGroups (acc ++ [e]) = N := by
            rw [nonExcludedGroups_append, hN]
            simp [nonExcludedGroups, hce]
          rw [hstep, List.filter_cons, hpred, if_pos (by simp), ih (acc ++ [e]) N hN' hctail]
          simp
        · have hstep : groupStep ex acc e = acc := by
            unfold groupStep; rw [if_neg h1, if_neg h2, if_neg h3]
          have hpred : survivesGroup ex N e = false := by
            simp only [survivesGroup, decide_eq_false_iff_not]
            rw [← hN]
            tauto
          rw [hstep, List.filter_cons, hpred, if_neg (by simp)]
          exact ih acc N hN hctail

/-- C2 counterexample: the claim's "at least one **User** entry that already
survived" is false on the code.  In this mapping the group entry "g2" survives
although no surviving user entry's comment mentions "g2" — its name was fed
into the pool by the comment of the *group* entry "g1" appended earlier in the
same pass. -/
theorem claim_C2_counterexample :
    (⟨"g2", "Group", "Inline", "Customer", "p", []⟩ : PPMEntry) ∈
      (getPostExclusionPrincipalPolicyMapping
        ⟨[⟨"u", "User", "Inline", "Customer", "p", ["g1"]⟩,
          ⟨"g1", "Group", "Inline", "Customer", "p", ["g2"]⟩,
          ⟨"g2", "Group", "Inline", "Customer", "p", []⟩]⟩
        emptyExclusions).entries ∧
    ∀ ue ∈ userStage emptyExclusions
        ⟨[⟨"u", "User", "Inline", "Customer", "p", ["g1"]⟩,
          ⟨"g1", "Group", "Inline", "Customer", "p", ["g2"]⟩,
          ⟨"g2", "Group", "Inline", "Customer", "p", []⟩]⟩,
      ∀ g ∈ ue.comment, pyLower g ≠ pyLower "g2" := by
  constructor
  · decide
  · decide

/-- C2 (amended): provided no Group entry of the mapping carries a non-empty
comment (true of every mapping the builder produces), a Group entry appears in
the filtered output iff its name and policy name are not excluded and its name
matches, case-insensitively, a comment entry of at least one User entry that
survived the user-filtering stage of the same pass. -/
theorem claim_C2 (m : PPM) (ex : Exclusions) (e : PPMEntry)
    (ht : e.principal_type = "Group") (he : e ∈ m.entries)
    (hg : ∀ x ∈ m.entries, x.principal_type = "Group" → x.comment = []) :
    e ∈ (getPostExclusionPrincipalPolicyMapping m ex).entries ↔
      (pyLower e.principal_name ∉ ex.groups ∧ pyLower e.policy_name ∉ ex.policies ∧
        ∃ ue ∈ userStage ex m, ∃ g ∈ ue.comment, pyLower g = pyLower e.principal_name) := by
  unfold getPostExclusionPrincipalPolicyMapping
  have hgc : ∀ x ∈ m.groups, x.comment = [] := fun x hx =>
    hg x (List.mem_of_mem_filter hx) (mem_groups_type m x hx)
  rw [groupFold_const ex m.groups (userStage ex m) (nonExcludedGroups (userStage ex m))
    rfl hgc]
  obtain ⟨rs, hrs, hrsub⟩ :=
    appendFold_shape (roleStep ex) (roleStep_cases ex) m.roles
      (userStage ex m ++ m.groups.filter (survivesGroup ex (nonExcludedGroups (userStage ex m))))
  rw [hrs]
  simp only [List.mem_append]
  constructor
  · rintro ((h | h) | h)
    · exact absurd (userStage_types ex m e h) (by rw [ht]; decide)
    · have hp := List.of_mem_filter h
      simp only [survivesGroup, decide_eq_true_eq] at hp
      obtain ⟨h1, h2, h3⟩ := hp
      exact ⟨h1, h2, (mem_nonExcludedGroups (userStage ex m) _).1 h3⟩
    · exact absurd (mem_roles_type m e (hrsub e h)) (by rw [ht]; decide)
  · rintro ⟨h1, h2, h3⟩
    refine Or.inl (Or.inr (List.mem_filter.2 ⟨List.mem_filter.2 ⟨he, by simp [ht]⟩, ?_⟩))
    simp only [survivesGroup, decide_eq_true_eq]
    exact ⟨h1, h2, (mem_nonExcludedGroups (userStage ex m) _).2 h3⟩

/-- C2 witness: a group entry whose name case-insensitively matches a surviving
user entry's comment group survives. -/
theorem claim_C2_witness :
    (⟨"g", "Group", "Inline", "Customer", "p", []⟩ : PPMEntry) ∈
      (getPostExclusionPrincipalPolicyMapping
        ⟨[⟨"u", "User", "Inline", "Customer", "p", ["G"]⟩,
          ⟨"g", "Group", "Inline", "Customer", "p", []⟩]⟩
        emptyExclusions).entries :=
  (claim_C2
      ⟨[⟨"u", "User", "Inline", "Customer", "p", ["G"]⟩,
        ⟨"g", "Group", "Inline", "Customer", "p", []⟩]⟩
      emptyExclusions ⟨"g", "Group", "Inline", "Customer", "p", []⟩
      (by decide) (by decide) (by decide)).2
    ⟨by decide, by decide,
      ⟨"u", "User", "Inline", "Customer", "p", ["G"]⟩, by decide, "G", by decide, by decide⟩

/-! ## The `isinstance` guards (C7) and the dead membership resolver (C3) -/

/-- C7: passing anything that is not an Exclusions instance makes each scanning
operation and the mapping filter return the `InvalidArgument` error immediately;
the guarded computation is never entered, so no state is produced or changed. -/
theorem claim_C7 (a : AuthorizationDetails) (fs : Findings) (ps : List Principal)
    (m : PPM) (arg : ExclusionsArg) (mo : Bool) (h : arg.isExclusions = false) :
    missingResourceConstraintsChecked a arg mo =
      .error "The provided exclusions is not the Exclusions object type." ∧
    scanPolicyDetailsChecked a arg mo =
      .error "The provided exclusions is not the Exclusions object type." ∧
    scanPrincipalTypeDetailsChecked fs ps arg mo =
      .error "The provided exclusions is not the Exclusions object type." ∧
    getPostExclusionChecked m arg =
      .error "The exclusions provided is not an Exclusions type object." := by
  cases arg with
  | valid ex => exact absurd h (by simp [ExclusionsArg.isExclusions])
  | invalid tag => exact ⟨rfl, rfl, rfl, rfl⟩

/-- C7 witness: the four operations reject a concrete non-Exclusions argument. -/
theorem claim_C7_witness :
    missingResourceConstraintsChecked (mkAuthorizationDetails [] [] [] [])
        (.invalid "None") true =
      .error "The provided exclusions is not the Exclusions object type." ∧
    scanPolicyDetailsChecked (mkAuthorizationDetails [] [] [] []) (.invalid "None") true =
      .error "The provided exclusions is not the Exclusions object type." ∧
    scanPrincipalTypeDetailsChecked emptyFindings [] (.invalid "None") true =
      .error "The provided exclusions is not the Exclusions object type." ∧
    getPostExclusionChecked ⟨[]⟩ (.invalid "None") =
      .error "The exclusions provided is not an Exclusions type object." :=
  claim_C7 (mkAuthorizationDetails [] [] [] []) emptyFindings [] ⟨[]⟩
    (.invalid "None") true rfl

theorem foldl_groupsDictStep_skip :
    ∀ (l : List Principal) (d : List (String × List String)),
      (∀ p ∈ l, p.principal_type ≠ "Users") → l.foldl groupsDictStep d = d := by
  intro l
  induction l with
  | nil => intro d _; rfl
  | cons p l ih =>
    intro d h
    show l.foldl groupsDictStep (groupsDictStep d p) = d
    have hp : p.principal_type ≠ "Users" := h p (List.mem_cons_self p l)
    have : groupsDictStep d p = d := by
      unfold groupsDictStep
      rw [if_neg (by simpa using hp)]
    rw [this]
    exact ih d fun q hq => h q (List.mem_cons_of_mem p hq)

theorem attachMembers_of_ne (d : List (String × List String)) (p : Principal)
    (h : p.principal_type ≠ "Groups") : attachMembers d p = p := by
  unfold attachMembers
  rw [if_neg (by simpa using h)]

/-- On a list with no "Groups"-typed principal, member resolution is the
identity. -/
theorem resolveMembers_id (ps : List Principal)
    (h : ∀ p ∈ ps, p.principal_type ≠ "Groups") : resolveMembers ps = ps := by
  unfold resolveMembers
  calc ps.map (attachMembers (buildGroupsDict ps))
      = ps.map id := List.map_congr_left fun p hp => attachMembers_of_ne _ p (h p hp)
    _ = ps := List.map_id ps

theorem mk_user_types (us : List Principal) :
    ∀ p ∈ (mkAuthorizationDetails [] [] [] []).user_detail_list ++ us.map
      (fun p => { p with principal_type := "User" }), p.principal_type = "User" := by
  intro p hp
  simp only [mkAuthorizationDetails, List.map_nil, List.nil_append, List.mem_map] at hp
  obtain ⟨q, -, hq⟩ := hp
  rw [← hq]

/-- C3: contrary to the claim, group-membership resolution never fires: on every
constructed snapshot the scan returns all three principal lists — including
every Group principal's `members` — exactly as constructed.  The membership
collector tests `principal_type == "Users"` and the attacher tests
`== "Groups"` (plural), but the entity model assigns the singular tags, and
users and groups are moreover scanned in separate lists. -/
theorem claim_C3 (pol : List Policy) (us gs rs : List Principal) (ex : Exclusions)
    (mo : Bool) :
    ((missingResourceConstraints (mkAuthorizationDetails pol us gs rs) ex mo).1
        ).user_detail_list = (mkAuthorizationDetails pol us gs rs).user_detail_list ∧
    ((missingResourceConstraints (mkAuthorizationDetails pol us gs rs) ex mo).1
        ).group_detail_list = (mkAuthorizationDetails pol us gs rs).group_detail_list ∧
    ((missingResourceConstraints (mkAuthorizationDetails pol us gs rs) ex mo).1
        ).role_detail_list = (mkAuthorizationDetails pol us gs rs).role_detail_list := by
  have hu : resolveMembers (mkAuthorizationDetails pol us gs rs).user_detail_list =
      (mkAuthorizationDetails pol us gs rs).user_detail_list := by
    apply resolveMembers_id
    intro p hp
    simp only [mkAuthorizationDetails, List.mem_map] at hp
    obtain ⟨q, -, hq⟩ := hp
    rw [← hq]
    show ("User" : String) ≠ "Groups"
    decide
  have hg : resolveMembers (mkAuthorizationDetails pol us gs rs).group_detail_list =
      (mkAuthorizationDetails pol us gs rs).group_detail_list := by
    apply resolveMembers_id
    intro p hp
    simp only [mkAuthorizationDetails, List.mem_map] at hp
    obtain ⟨q, -, hq⟩ := hp
    rw [← hq]
    show ("Group" : String) ≠ "Groups"
    decide
  have hr : resolveMembers (mkAuthorizationDetails pol us gs rs).role_detail_list =
      (mkAuthorizationDetails pol us gs rs).role_detail_list := by
    apply resolveMembers_id
    intro p hp
    simp only [mkAuthorizationDetails, List.mem_map] at hp
    obtain ⟨q, -, hq⟩ := hp
    rw [← hq]
    show ("Role" : String) ≠ "Groups"
    decide
  refine ⟨?_, ?_, ?_⟩ <;>
    simp only [missingResourceConstraints, scanPrincipalTypeDetails, hu, hg, hr]

/-! ## Characterizing the findings the two scans accumulate (C4, C6) -/

/-- The user findings one (principal, policy-list entry) pair contributes. -/
def userContrib (ex : Exclusions) (mo : Bool) (p : Principal) (pol : PolicyListEntry) :
    List UserFinding :=
  if ex.isPolicyExcluded pol.PolicyName then []
  else if ex.isPrincipalExcluded p.name p.principal_type then []
  else if accumulatedActions mo pol.PolicyDocument ≠ [] then
    if p.principal_type == "User" then
      [{ policy_name := pol.PolicyName, arn := p.arn
         actions := accumulatedActions mo pol.PolicyDocument
         policy_document := pol.PolicyDocument
         attached_managed_policies := p.attached_managed_policies
         group_membership := p.group_member }]
    else []
  else []

/-- The group findings one (principal, policy-list entry) pair contributes. -/
def groupContrib (ex : Exclusions) (mo : Bool) (p : Principal) (pol : PolicyListEntry) :
    List GroupFinding :=
  if ex.isPolicyExcluded pol.PolicyName then []
  else if ex.isPrincipalExcluded p.name p.principal_type then []
  else if accumulatedActions mo pol.PolicyDocument ≠ [] then
    if p.principal_type == "User" then []
    else if p.principal_type == "Group" then
      [{ policy_name := pol.PolicyName, arn := p.arn
         actions := accumulatedActions mo pol.PolicyDocument
         policy_document := pol.PolicyDocument, members := p.members
         attached_managed_policies := p.attached_managed_policies }]
    else []
  else []

/-- The role findings one (principal, policy-list entry) pair contributes. -/
def roleContrib (ex : Exclusions) (mo : Bool) (p : Principal) (pol : PolicyListEntry) :
    List RoleFinding :=
  if ex.isPolicyExcluded pol.PolicyName then []
  else if ex.isPrincipalExcluded p.name p.principal_type then []
  else if accumulatedActions mo pol.PolicyDocument ≠ [] then
    if p.principal_type == "User" then []
    else if p.principal_type == "Group" then []
    else if p.principal_type == "Role" then
      [{ policy_name := pol.PolicyName, arn := p.arn
         actions := accumulatedActions mo pol.PolicyDocument
         policy_document := pol.PolicyDocument
         assume_role_policy_document := p.assume_role_policy_document
         attached_managed_policies := p.attached_managed_policies }]
    else []
  else []

/-- The policy findings one standalone policy contributes. -/
def policyContrib (ex : Exclusions) (mo : Bool) (pol : Policy) : List PolicyFinding :=
  if ex.isPolicyExcluded pol.policy_name || ex.isPolicyExcluded pol.full_policy_path then []
  else if accumulatedActions mo pol.policy_document ≠ [] then
    [{ policy_name := pol.policy_name, arn := pol.arn
       actions := pySortStr (pyDedup (accumulatedActions mo pol.policy_document))
       policy_document := pol.policy_document }]
  else []

/-- Generic accumulation lemma: a fold whose step appends `g x` to the
projection `π` of the state appends `l.flatMap g` overall. -/
theorem foldl_proj {χ β : Type} (π : Findings → List β)
    (step : Findings → χ → Findings) (g : χ → List β)
    (hstep : ∀ fs x, π (step fs x) = π fs ++ g x) :
    ∀ (l : List χ) (fs : Findings), π (l.foldl step fs) = π fs ++ l.flatMap g := by
  intro l
  induction l with
  | nil => intro fs; simp
  | cons x l ih =>
    intro fs
    show π (l.foldl step (step fs x)) = _
    rw [ih (step fs x), hstep fs x, List.flatMap_cons, List.append_assoc]

theorem flatMap_const_nil {χ β : Type} (l : List χ) :
    (l.flatMap fun _ => ([] : List β)) = [] := by
  induction l <;> simp_all

theorem step_users (ex : Exclusions) (mo : Bool) (p : Principal)
    (fs : Findings) (pol : PolicyListEntry) :
    (scanPrincipalPolicyStep ex mo p fs pol).users = fs.users ++ userContrib ex mo p pol := by
  simp only [scanPrincipalPolicyStep, userContrib]
  split_ifs <;> simp_all

theorem step_groups (ex : Exclusions) (mo : Bool) (p : Principal)
    (fs : Findings) (pol : PolicyListEntry) :
    (scanPrincipalPolicyStep ex mo p fs pol).groups =
      fs.groups ++ groupContrib ex mo p pol := by
  simp only [scanPrincipalPolicyStep, groupContrib]
  split_ifs <;> simp_all

theorem step_roles (ex : Exclusions) (mo : Bool) (p : Principal)
    (fs : Findings) (pol : PolicyListEntry) :
    (scanPrincipalPolicyStep ex mo p fs pol).roles = fs.roles ++ roleContrib ex mo p pol := by
  simp only [scanPrincipalPolicyStep, roleContrib]
  split_ifs <;> simp_all

theorem step_policies (ex : Exclusions) (mo : Bool) (p : Principal)
    (fs : Findings) (pol : PolicyListEntry) :
    (scanPrincipalPolicyStep ex mo p fs pol).policies = fs.policies := by
  simp only [scanPrincipalPolicyStep]
  split_ifs <;> rfl

theorem step_mapping (ex : Exclusions) (mo : Bool) (p : Principal)
    (fs : Findings) (pol : PolicyListEntry) :
    (scanPrincipalPolicyStep ex mo p fs pol).principal_policy_mapping =
      fs.principal_policy_mapping := by
  simp only [scanPrincipalPolicyStep]
  split_ifs <;> rfl

theorem polStep_policies (ex : Exclusions) (mo : Bool) (fs : Findings) (pol : Policy) :
    (scanPolicyStep ex mo fs pol).policies = fs.policies ++ policyContrib ex mo pol := by
  simp only [scanPolicyStep, policyContrib]
  split_ifs <;> simp_all

theorem polStep_users (ex : Exclusions) (mo : Bool) (fs : Findings) (pol : Policy) :
    (scanPolicyStep ex mo fs pol).users = fs.users := by
  simp only [scanPolicyStep]
  split_ifs <;> rfl

theorem polStep_groups (ex : Exclusions) (mo : Bool) (fs : Findings) (pol : Policy) :
    (scanPolicyStep ex mo fs pol).groups = fs.groups := by
  simp only [scanPolicyStep]
  split_ifs <;> rfl

theorem polStep_roles (ex : Exclusions) (mo : Bool) (fs : Findings) (pol : Policy) :
    (scanPolicyStep ex mo fs pol).roles = fs.roles := by
  simp only [scanPolicyStep]
  split_ifs <;> rfl

theorem scanOnePrincipal_users (ex : Exclusions) (mo : Bool) (fs : Findings)
    (p : Principal) :
    (scanOnePrincipal ex mo fs p).users =
      fs.users ++ p.policy_list.flatMap (userContrib ex mo p) :=
  foldl_proj Findings.users (scanPrincipalPolicyStep ex mo p) (userContrib ex mo p)
    (step_users ex mo p) p.policy_list fs

theorem scanOnePrincipal_groups (ex : Exclusions) (mo : Bool) (fs : Findings)
    (p : Principal) :
    (scanOnePrincipal ex mo fs p).groups =
      fs.groups ++ p.policy_list.flatMap (groupContrib ex mo p) :=
  foldl_proj Findings.groups (scanPrincipalPolicyStep ex mo p) (groupContrib ex mo p)
    (step_groups ex mo p) p.policy_list fs

theorem scanOnePrincipal_roles (ex : Exclusions) (mo : Bool) (fs : Findings)
    (p : Principal) :
    (scanOnePrincipal ex mo fs p).roles =
      fs.roles ++ p.policy_list.flatMap (roleContrib ex mo p) :=
  foldl_proj Findings.roles (scanPrincipalPolicyStep ex mo p) (roleContrib ex mo p)
    (step_roles ex mo p) p.policy_list fs

theorem scanOnePrincipal_policies (ex : Exclusions) (mo : Bool) (fs : Findings)
    (p : Principal) :
    (scanOnePrincipal ex mo fs p).policies = fs.policies := by
  have h := foldl_proj Findings.policies (scanPrincipalPolicyStep ex mo p) (fun _ => [])
    (fun fs pol => by rw [step_policies]; simp) p.policy_list fs
  rw [flatMap_const_nil, List.append_nil] at h
  exact h

theorem scanOnePrincipal_mapping (ex : Exclusions) (mo : Bool) (fs : Findings)
    (p : Principal) :
    (scanOnePrincipal ex mo fs p).principal_policy_mapping =
      fs.principal_policy_mapping := by
  have h := foldl_proj Findings.principal_policy_mapping (scanPrincipalPolicyStep ex mo p)
    (fun _ => []) (fun fs pol => by rw [step_mapping]; simp) p.policy_list fs
  rw [flatMap_const_nil, List.append_nil] at h
  exact h

/-- The user findings accumulated over a principal list. -/
theorem foldl_scanOne_users (ex : Exclusions) (mo : Bool) :
    ∀ (l : List Principal) (fs : Findings),
      (l.foldl (scanOnePrincipal ex mo) fs).users =
        fs.users ++ l.flatMap (fun p => p.policy_list.flatMap (userContrib ex mo p)) :=
  fun l fs => foldl_proj Findings.users (scanOnePrincipal ex mo)
    (fun p => p.policy_list.flatMap (userContrib ex mo p))
    (fun fs p => scanOnePrincipal_users ex mo fs p) l fs

theorem foldl_scanOne_groups (ex : Exclusions) (mo : Bool) :
    ∀ (l : List Principal) (fs : Findings),
      (l.foldl (scanOnePrincipal ex mo) fs).groups =
        fs.groups ++ l.flatMap (fun p => p.policy_list.flatMap (groupContrib ex mo p)) :=
  fun l fs => foldl_proj Findings.groups (scanOnePrincipal ex mo)
    (fun p => p.policy_list.flatMap (groupContrib ex mo p))
    (fun fs p => scanOnePrincipal_groups ex mo fs p) l fs

theorem foldl_scanOne_roles (ex : Exclusions) (mo : Bool) :
    ∀ (l : List Principal) (fs : Findings),
      (l.foldl (scanOnePrincipal ex mo) fs).roles =
        fs.roles ++ l.flatMap (fun p => p.policy_list.flatMap (roleContrib ex mo p)) :=
  fun l fs => foldl_proj Findings.roles (scanOnePrincipal ex mo)
    (fun p => p.policy_list.flatMap (roleContrib ex mo p))
    (fun fs p => scanOnePrincipal_roles ex mo fs p) l fs

theorem foldl_scanOne_policies (ex : Exclusions) (mo : Bool) :
    ∀ (l : List Principal) (fs : Findings),
      (l.foldl (scanOnePrincipal ex mo) fs).policies = fs.policies := by
  intro l fs
  have h := foldl_proj Findings.policies (scanOnePrincipal ex mo) (fun _ => [])
    (fun fs p => by rw [scanOnePrincipal_policies]; simp) l fs
  rw [flatMap_const_nil, List.append_nil] at h
  exact h

theorem scanPolicyDetails_policies (a : AuthorizationDetails) (ex : Exclusions)
    (mo : Bool) :
    (scanPolicyDetails a ex mo).policies =
      a.findings.policies ++ a.policies.flatMap (policyContrib ex mo) :=
  foldl_proj Findings.policies (scanPolicyStep ex mo) (policyContrib ex mo)
    (polStep_policies ex mo) a.policies a.findings

theorem scanPolicyDetails_users (a : AuthorizationDetails) (ex : Exclusions)
    (mo : Bool) : (scanPolicyDetails a ex mo).users = a.findings.users := by
  have h := foldl_proj Findings.users (scanPolicyStep ex mo) (fun _ => [])
    (fun fs pol => by rw [polStep_users]; simp) a.policies a.findings
  rw [flatMap_const_nil, List.append_nil] at h
  exact h

theorem scanPolicyDetails_groups (a : AuthorizationDetails) (ex : Exclusions)
    (mo : Bool) : (scanPolicyDetails a ex mo).groups = a.findings.groups := by
  have h := foldl_proj Findings.groups (scanPolicyStep ex mo) (fun _ => [])
    (fun fs pol => by rw [polStep_groups]; simp) a.policies a.findings
  rw [flatMap_const_nil, List.append_nil] at h
  exact h

theorem scanPolicyDetails_roles (a : AuthorizationDetails) (ex : Exclusions)
    (mo : Bool) : (scanPolicyDetails a ex mo).roles = a.findings.roles := by
  have h := foldl_proj Findings.roles (scanPolicyStep ex mo) (fun _ => [])
    (fun fs pol => by rw [polStep_roles]; simp) a.policies a.findings
  rw [flatMap_const_nil, List.append_nil] at h
  exact h

/-! ## Properties of `pyDedup` and `pySortStr` -/

theorem mem_pyDedupGo (x : String) :
    ∀ (l seen : List String), x ∈ pyDedupGo seen l ↔ x ∈ l ∧ x ∉ seen := by
  intro l
  induction l with
  | nil => intro seen; simp [pyDedupGo]
  | cons y ys ih =>
    intro seen
    unfold pyDedupGo
    by_cases hy : y ∈ seen
    · rw [if_pos hy, ih seen]
      constructor
      · rintro ⟨h1, h2⟩
        exact ⟨List.mem_cons_of_mem y h1, h2⟩
      · rintro ⟨h1, h2⟩
        rcases List.mem_cons.1 h1 with h | h
        · exact absurd (h ▸ hy) h2
        · exact ⟨h, h2⟩
    · rw [if_neg hy]
      simp only [List.mem_cons, ih (y :: seen)]
      constructor
      · rintro (h | ⟨h1, h2⟩)
        · exact ⟨Or.inl h, h ▸ hy⟩
        · exact ⟨Or.inr h1, fun hs => h2 (Or.inr hs)⟩
      · rintro ⟨h1 | h1, h2⟩
        · exact Or.inl h1
        · by_cases hxy : x = y
          · exact Or.inl hxy
          · exact Or.inr ⟨h1, by simp [hxy, h2]⟩

theorem nodup_pyDedupGo : ∀ (l seen : List String), (pyDedupGo seen l).Nodup := by
  intro l
  induction l with
  | nil => intro seen; exact List.nodup_nil
  | cons y ys ih =>
    intro seen
    unfold pyDedupGo
    by_cases hy : y ∈ seen
    · rw [if_pos hy]; exact ih seen
    · rw [if_neg hy]
      refine List.nodup_cons.2 ⟨fun hmem => ?_, ih (y :: seen)⟩
      exact ((mem_pyDedupGo y ys (y :: seen)).1 hmem).2 (List.mem_cons_self y seen)

theorem pyDedup_nodup (l : List String) : (pyDedup l).Nodup := nodup_pyDedupGo l []

theorem mem_pyDedup (x : String) (l : List String) : x ∈ pyDedup l ↔ x ∈ l := by
  rw [pyDedup, mem_pyDedupGo]
  simp

theorem pyDedup_ne_nil (l : List String) (h : l ≠ []) : pyDedup l ≠ [] := by
  cases l with
  | nil => exact absurd rfl h
  | cons x xs =>
    intro hcon
    have : x ∈ pyDedup (x :: xs) := (mem_pyDedup x _).2 (List.mem_cons_self x xs)
    rw [hcon] at this
    exact absurd this (List.not_mem_nil x)

theorem pySortStr_perm (l : List String) : List.Perm (pySortStr l) l :=
  List.perm_insertionSort (· ≤ ·) l

theorem pySortStr_sorted (l : List String) : List.Sorted (· ≤ ·) (pySortStr l) :=
  List.sorted_insertionSort (· ≤ ·) l

theorem pySortStr_nodup (l : List String) (h : l.Nodup) : (pySortStr l).Nodup :=
  ((pySortStr_perm l).nodup_iff).2 h

theorem pySortStr_ne_nil (l : List String) (h : l ≠ []) : pySortStr l ≠ [] := by
  intro hcon
  have hp : List.Perm l (pySortStr l) := (pySortStr_perm l).symm
  rw [hcon] at hp
  exact h hp.eq_nil

/-! ## Per-contribution facts -/

theorem userContrib_actions (ex : Exclusions) (mo : Bool) (p : Principal)
    (pol : PolicyListEntry) (f : UserFinding) (hf : f ∈ userContrib ex mo p pol) :
    f.actions = accumulatedActions mo pol.PolicyDocument ∧ f.actions ≠ [] := by
  unfold userContrib at hf
  split_ifs at hf with h1 h2 h3 h4
  · simp at hf
  · simp at hf
  · rw [List.mem_singleton] at hf
    subst hf
    exact ⟨rfl, h3⟩
  · simp at hf
  · simp at hf

theorem groupContrib_actions (ex : Exclusions) (mo : Bool) (p : Principal)
    (pol : PolicyListEntry) (f : GroupFinding) (hf : f ∈ groupContrib ex mo p pol) :
    f.actions = accumulatedActions mo pol.PolicyDocument ∧ f.actions ≠ [] := by
  unfold groupContrib at hf
  split_ifs at hf with h1 h2 h3 h4 h5
  · simp at hf
  · simp at hf
  · simp at hf
  · rw [List.mem_singleton] at hf
    subst hf
    exact ⟨rfl, h3⟩
  · simp at hf
  · simp at hf

theorem roleContrib_actions (ex : Exclusions) (mo : Bool) (p : Principal)
    (pol : PolicyListEntry) (f : RoleFinding) (hf : f ∈ roleContrib ex mo p pol) :
    f.actions = accumulatedActions mo pol.PolicyDocument ∧ f.actions ≠ [] := by
  unfold roleContrib at hf
  split_ifs at hf with h1 h2 h3 h4 h5 h6
  · simp at hf
  · simp at hf
  · simp at hf
  · simp at hf
  · rw [List.mem_singleton] at hf
    subst hf
    exact ⟨rfl, h3⟩
  · simp at hf
  · simp at hf

theorem policyContrib_actions (ex : Exclusions) (mo : Bool) (pol : Policy)
    (f : PolicyFinding) (hf : f ∈ policyContrib ex mo pol) :
    f.actions = pySortStr (pyDedup (accumulatedActions mo pol.policy_document)) ∧
      f.actions ≠ [] ∧ f.actions.Nodup ∧ List.Sorted (· ≤ ·) f.actions := by
  unfold policyContrib at hf
  split_ifs at hf with h1 h2
  · simp at hf
  · rw [List.mem_singleton] at hf
    subst hf
    exact ⟨rfl, pySortStr_ne_nil _ (pyDedup_ne_nil _ h2),
      pySortStr_nodup _ (pyDedup_nodup _), pySortStr_sorted _⟩
  · simp at hf

/-! ## The serialized output of a full scan, field by field -/

theorem scanOutput_policies (a : AuthorizationDetails) (ex : Exclusions) (mo : Bool) :
    ((missingResourceConstraints a ex mo).2).1 = a.policies.flatMap (policyContrib ex mo) := by
  simp only [missingResourceConstraints, scanPrincipalTypeDetails, Findings.json]
  rw [scanPolicyDetails_policies]
  simp only [foldl_scanOne_policies]
  rfl

theorem scanOutput_users (a : AuthorizationDetails) (ex : Exclusions) (mo : Bool) :
    ((missingResourceConstraints a ex mo).2).2.1 =
      (resolveMembers a.user_detail_list).flatMap
          (fun p => p.policy_list.flatMap (userContrib ex mo p)) ++
        (resolveMembers a.group_detail_list).flatMap
          (fun p => p.policy_list.flatMap (userContrib ex mo p)) ++
        (resolveMembers a.role_detail_list).flatMap
          (fun p => p.policy_list.flatMap (userContrib ex mo p)) := by
  simp only [missingResourceConstraints, scanPrincipalTypeDetails, Findings.json]
  rw [scanPolicyDetails_users]
  show (List.foldl (scanOnePrincipal ex mo) (List.foldl (scanOnePrincipal ex mo)
      (List.foldl (scanOnePrincipal ex mo) emptyFindings
        (resolveMembers a.user_detail_list)) (resolveMembers a.group_detail_list))
      (resolveMembers a.role_detail_list)).users = _
  rw [foldl_scanOne_users, foldl_scanOne_users, foldl_scanOne_users]
  simp [emptyFindings]

theorem scanOutput_groups (a : AuthorizationDetails) (ex : Exclusions) (mo : Bool) :
    ((missingResourceConstraints a ex mo).2).2.2.1 =
      (resolveMembers a.user_detail_list).flatMap
          (fun p => p.policy_list.flatMap (groupContrib ex mo p)) ++
        (resolveMembers a.group_detail_list).flatMap
          (fun p => p.policy_list.flatMap (groupContrib ex mo p)) ++
        (resolveMembers a.role_detail_list).flatMap
          (fun p => p.policy_list.flatMap (groupContrib ex mo p)) := by
  simp only [missingResourceConstraints, scanPrincipalTypeDetails, Findings.json]
  rw [scanPolicyDetails_groups]
  show (List.foldl (scanOnePrincipal ex mo) (List.foldl (scanOnePrincipal ex mo)
      (List.foldl (scanOnePrincipal ex mo) emptyFindings
        (resolveMembers a.user_detail_list)) (resolveMembers a.group_detail_list))
      (resolveMembers a.role_detail_list)).groups = _
  rw [foldl_scanOne_groups, foldl_scanOne_groups, foldl_scanOne_groups]
  simp [emptyFindings]

theorem scanOutput_roles (a : AuthorizationDetails) (ex : Exclusions) (mo : Bool) :
    ((missingResourceConstraints a ex mo).2).2.2.2.1 =
      (resolveMembers a.user_detail_list).flatMap
          (fun p => p.policy_list.flatMap (roleContrib ex mo p)) ++
        (resolveMembers a.group_detail_list).flatMap
          (fun p => p.policy_list.flatMap (roleContrib ex mo p)) ++
        (resolveMembers a.role_detail_list).flatMap
          (fun p => p.policy_list.flatMap (roleContrib ex mo p)) := by
  simp only [missingResourceConstraints, scanPrincipalTypeDetails, Findings.json]
  rw [scanPolicyDetails_roles]
  show (List.foldl (scanOnePrincipal ex mo) (List.foldl (scanOnePrincipal ex mo)
      (List.foldl (scanOnePrincipal ex mo) emptyFindings
        (resolveMembers a.user_detail_list)) (resolveMembers a.group_detail_list))
      (resolveMembers a.role_detail_list)).roles = _
  rw [foldl_scanOne_roles, foldl_scanOne_roles, foldl_scanOne_roles]
  simp [emptyFindings]

/-- C4 counterexample: in `scan_principal_type_details` the accumulated actions
are **not** deduplicated or sorted before the Finding is constructed: a user
with one policy whose two Allow statements each yield `["b", "a"]` produces a
UserFinding with actions `["b", "a", "b", "a"]` — duplicated and unsorted. -/
theorem claim_C4_counterexample :
    (((missingResourceConstraints
        (mkAuthorizationDetails []
          [⟨"u4", "a4", "", [], [],
            [⟨"P4", [⟨"Allow", ["b", "a"], ["b", "a"]⟩,
                     ⟨"Allow", ["b", "a"], ["b", "a"]⟩]⟩], [], [], ""⟩]
          [] [])
        emptyExclusions true).2).2.1).map UserFinding.actions = [["b", "a", "b", "a"]] ∧
    ¬ (["b", "a", "b", "a"] : List String).Nodup ∧
    ¬ List.Sorted (· ≤ ·) (["b", "a", "b", "a"] : List String) := by
  refine ⟨by decide, by decide, ?_⟩
  intro hcon
  have hba := List.rel_of_sorted_cons hcon "a" (by decide)
  rw [String.le_iff_toList_le] at hba
  exact absurd hba (by decide)

/-- C4 (amended): in `scan_policy_details` the accumulated actions are
deduplicated and sorted before the PolicyFinding is constructed, and a
PolicyFinding is emitted exactly for each non-excluded policy with a non-empty
accumulation; in `scan_principal_type_details` the accumulated actions are
passed to the Finding unchanged.  In both scans a Finding is only ever
constructed from a non-empty action list, so every emitted Finding's `actions`
is non-empty. -/
theorem claim_C4 (a : AuthorizationDetails) (ex : Exclusions) (mo : Bool) :
    (∀ f ∈ ((missingResourceConstraints a ex mo).2).1,
        f.actions ≠ [] ∧ f.actions.Nodup ∧ List.Sorted (· ≤ ·) f.actions) ∧
    (∀ f ∈ ((missingResourceConstraints a ex mo).2).2.1, f.actions ≠ []) ∧
    (∀ f ∈ ((missingResourceConstraints a ex mo).2).2.2.1, f.actions ≠ []) ∧
    (∀ f ∈ ((missingResourceConstraints a ex mo).2).2.2.2.1, f.actions ≠ []) ∧
    (∀ pol ∈ a.policies,
      (ex.isPolicyExcluded pol.policy_name || ex.isPolicyExcluded pol.full_policy_path)
          = false →
      accumulatedActions mo pol.policy_document ≠ [] →
      ({ policy_name := pol.policy_name, arn := pol.arn
         actions := pySortStr (pyDedup (accumulatedActions mo pol.policy_document))
         policy_document := pol.policy_document } : PolicyFinding) ∈
        ((missingResourceConstraints a ex mo).2).1) := by
  refine ⟨?_, ?_, ?_, ?_, ?_⟩
  · intro f hf
    rw [scanOutput_policies] at hf
    rw [List.mem_flatMap] at hf
    obtain ⟨pol, -, hf⟩ := hf
    obtain ⟨-, h1, h2, h3⟩ := policyContrib_actions ex mo pol f hf
    exact ⟨h1, h2, h3⟩
  · intro f hf
    rw [scanOutput_users] at hf
    simp only [List.mem_append, List.mem_flatMap] at hf
    rcases hf with (⟨p, -, pol, -, hf⟩ | ⟨p, -, pol, -, hf⟩) | ⟨p, -, pol, -, hf⟩ <;>
      exact (userContrib_actions ex mo p pol f hf).2
  · intro f hf
    rw [scanOutput_groups] at hf
    simp only [List.mem_append, List.mem_flatMap] at hf
    rcases hf with (⟨p, -, pol, -, hf⟩ | ⟨p, -, pol, -, hf⟩) | ⟨p, -, pol, -, hf⟩ <;>
      exact (groupContrib_actions ex mo p pol f hf).2
  · intro f hf
    rw [scanOutput_roles] at hf
    simp only [List.mem_append, List.mem_flatMap] at hf
    rcases hf with (⟨p, -, pol, -, hf⟩ | ⟨p, -, pol, -, hf⟩) | ⟨p, -, pol, -, hf⟩ <;>
      exact (roleContrib_actions ex mo p pol f hf).2
  · intro pol hpol hexcl hacc
    rw [scanOutput_policies, List.mem_flatMap]
    refine ⟨pol, hpol, ?_⟩
    unfold policyContrib
    rw [hexcl]
    rw [if_neg (by simp), if_pos hacc]
    exact List.mem_singleton.mpr rfl

/-- C4 witness: on a concrete snapshot with one standalone policy producing
duplicate unsorted actions, the emitted PolicyFinding carries the dedup-sorted
list. -/
theorem claim_C4_witness :
    ({ policy_name := "P5", arn := "arn:5"
       actions := pySortStr (pyDedup (accumulatedActions true
         [⟨"Allow", ["b", "a"], ["b", "a"]⟩, ⟨"Allow", ["b", "a"], ["b", "a"]⟩]))
       policy_document := [⟨"Allow", ["b", "a"], ["b", "a"]⟩,
         ⟨"Allow", ["b", "a"], ["b", "a"]⟩] } : PolicyFinding) ∈
      ((missingResourceConstraints
        (mkAuthorizationDetails
          [⟨"P5", "arn:5", "path/P5",
            [⟨"Allow", ["b", "a"], ["b", "a"]⟩, ⟨"Allow", ["b", "a"], ["b", "a"]⟩]⟩]
          [] [] [])
        emptyExclusions true).2).1 :=
  (claim_C4 (mkAuthorizationDetails
      [⟨"P5", "arn:5", "path/P5",
        [⟨"Allow", ["b", "a"], ["b", "a"]⟩, ⟨"Allow", ["b", "a"], ["b", "a"]⟩]⟩]
      [] [] []) emptyExclusions true).2.2.2.2
    ⟨"P5", "arn:5", "path/P5",
      [⟨"Allow", ["b", "a"], ["b", "a"]⟩, ⟨"Allow", ["b", "a"], ["b", "a"]⟩]⟩
    (by decide) (by decide) (by decide)

/-! ## Classifier characterization (C8) -/

/-- Generic accumulation lemma for list-valued folds that append. -/
theorem foldl_append_proj {χ β : Type} (step : List β → χ → List β) (g : χ → List β)
    (hstep : ∀ acc x, step acc x = acc ++ g x) :
    ∀ (l : List χ) (acc : List β), l.foldl step acc = acc ++ l.flatMap g := by
  intro l
  induction l with
  | nil => intro acc; simp
  | cons x l ih =>
    intro acc
    show l.foldl step (step acc x) = _
    rw [ih (step acc x), hstep acc x, List.flatMap_cons, List.append_assoc]

/-- The names one principal's attached-policy loop appends, classified by `cond`. -/
def attachedNames (cond : String → Bool) (p : Principal) : List String :=
  p.attached_managed_policies.flatMap fun ap =>
    if cond ap.PolicyArn then [ap.PolicyName] else []

theorem attachedLoop_eq (cond : String → Bool) (acc : List String) (p : Principal) :
    attachedLoop cond acc p = acc ++ attachedNames cond p := by
  unfold attachedLoop attachedNames
  refine foldl_append_proj
    (fun acc' ap => if cond ap.PolicyArn then acc' ++ [ap.PolicyName] else acc')
    (fun ap => if cond ap.PolicyArn then [ap.PolicyName] else [])
    ?_ p.attached_managed_policies acc
  intro acc' ap
  cases h : cond ap.PolicyArn <;> simp [h]

/-- The classified standalone-policy names, in input order. -/
def standaloneNames (cond : String → Bool) (a : AuthorizationDetails) : List String :=
  a.policies.flatMap fun p => if cond p.arn then [p.policy_name] else []

/-- The pre-deduplication name stream of `_aws_managed_policies_in_use`, in the
code's traversal order: standalone, groups, users, roles. -/
def awsRaw (a : AuthorizationDetails) : List String :=
  standaloneNames (fun arn => strContains arn awsSegment) a ++
    a.group_detail_list.flatMap (attachedNames (fun arn => strContains arn awsSegment)) ++
    a.user_detail_list.flatMap (attachedNames (fun arn => strContains arn awsSegment)) ++
    a.role_detail_list.flatMap (attachedNames (fun arn => strContains arn awsSegment))

/-- The pre-deduplication name stream of `_customer_managed_policies_in_use`. -/
def customerRaw (a : AuthorizationDetails) : List String :=
  standaloneNames (fun arn => !strContains arn awsSegment) a ++
    a.group_detail_list.flatMap
      (attachedNames (fun arn => !strContains arn awsSegment)) ++
    a.user_detail_list.flatMap
      (attachedNames (fun arn => !strContains arn awsSegment)) ++
    a.role_detail_list.flatMap
      (attachedNames (fun arn => !strContains arn awsSegment))

theorem foldl_attachedLoop (cond : String → Bool) (l : List Principal)
    (acc : List String) :
    l.foldl (attachedLoop cond) acc = acc ++ l.flatMap (attachedNames cond) :=
  foldl_append_proj (attachedLoop cond) (attachedNames cond) (attachedLoop_eq cond) l acc

theorem standalone_fold_aws (a : AuthorizationDetails) :
    a.policies.foldl
        (fun acc p => if strContains p.arn awsSegment then acc ++ [p.policy_name] else acc)
        [] =
      standaloneNames (fun arn => strContains arn awsSegment) a := by
  have h := foldl_append_proj
    (fun acc p => if strContains p.arn awsSegment then acc ++ [p.policy_name] else acc)
    (fun p => if strContains p.arn awsSegment then [p.policy_name] else [])
    (fun acc p => by cases h : strContains p.arn awsSegment <;> simp [h])
    a.policies []
  rw [h]
  simp [standaloneNames]

theorem standalone_fold_customer (a : AuthorizationDetails) :
    a.policies.foldl
        (fun acc p =>
          if !strContains p.arn awsSegment then acc ++ [p.policy_name] else acc)
        [] =
      standaloneNames (fun arn => !strContains arn awsSegment) a := by
  have h := foldl_append_proj
    (fun acc p => if !strContains p.arn awsSegment then acc ++ [p.policy_name] else acc)
    (fun p => if !strContains p.arn awsSegment then [p.policy_name] else [])
    (fun acc p => by cases h : strContains p.arn awsSegment <;> simp [h])
    a.policies []
  rw [h]
  simp [standaloneNames]

/-- Modelled from the claim's words, for comparison: the same classified name
stream but traversing users before groups (standalone, users, groups, roles). -/
def claimOrderAwsRaw (a : AuthorizationDetails) : List String :=
  standaloneNames (fun arn => strContains arn awsSegment) a ++
    a.user_detail_list.flatMap (attachedNames (fun arn => strContains arn awsSegment)) ++
    a.group_detail_list.flatMap (attachedNames (fun arn => strContains arn awsSegment)) ++
    a.role_detail_list.flatMap (attachedNames (fun arn => strContains arn awsSegment))

/-- C8 counterexample: with a user attached to AWS-managed "A" and a group
attached to AWS-managed "B", the classifier emits `["B", "A"]` — groups are
traversed **before** users, not after as the claim states. -/
theorem claim_C8_counterexample :
    awsManagedPoliciesInUse
        (mkAuthorizationDetails []
          [⟨"u", "au", "", [], [⟨"A", "arn:aws:iam::aws:policy/A"⟩], [], [], [], ""⟩]
          [⟨"g", "ag", "", [], [⟨"B", "arn:aws:iam::aws:policy/B"⟩], [], [], [], ""⟩]
          []) = ["B", "A"] ∧
    pyDedup (claimOrderAwsRaw
        (mkAuthorizationDetails []
          [⟨"u", "au", "", [], [⟨"A", "arn:aws:iam::aws:policy/A"⟩], [], [], [], ""⟩]
          [⟨"g", "ag", "", [], [⟨"B", "arn:aws:iam::aws:policy/B"⟩], [], [], [], ""⟩]
          [])) = ["A", "B"] ∧
    (["B", "A"] : List String) ≠ ["A", "B"] := by
  refine ⟨by decide, by decide, by decide⟩

/-- C8 (amended): both classifier lists are built by iterating standalone
policies first, then the attached managed policies of every **Group**, then of
every **User**, then of every Role, classifying by the ARN substring test, and
finally deduplicating preserving first occurrence; the results are
duplicate-free and contain exactly the classified names. -/
theorem claim_C8 (a : AuthorizationDetails) :
    awsManagedPoliciesInUse a = pyDedup (awsRaw a) ∧
    customerManagedPoliciesInUse a = pyDedup (customerRaw a) ∧
    (awsManagedPoliciesInUse a).Nodup ∧ (customerManagedPoliciesInUse a).Nodup ∧
    (∀ x, x ∈ awsManagedPoliciesInUse a ↔ x ∈ awsRaw a) ∧
    (∀ x, x ∈ customerManagedPoliciesInUse a ↔ x ∈ customerRaw a) := by
  have haws : awsManagedPoliciesInUse a = pyDedup (awsRaw a) := by
    simp only [awsManagedPoliciesInUse]
    rw [standalone_fold_aws, foldl_attachedLoop, foldl_attachedLoop, foldl_attachedLoop]
    simp [awsRaw, List.append_assoc]
  have hcust : customerManagedPoliciesInUse a = pyDedup (customerRaw a) := by
    simp only [customerManagedPoliciesInUse]
    rw [standalone_fold_customer, foldl_attachedLoop, foldl_attachedLoop,
      foldl_attachedLoop]
    simp [customerRaw, List.append_assoc]
  refine ⟨haws, hcust, ?_, ?_, ?_, ?_⟩
  · rw [haws]; exact pyDedup_nodup _
  · rw [hcust]; exact pyDedup_nodup _
  · intro x; rw [haws]; exact mem_pyDedup x _
  · intro x; rw [hcust]; exact mem_pyDedup x _

/-! ## The mapping builder: sortedness and permutation behaviour (C5) -/

/-- The sort key as a plain tuple (equal to `keyOf` through `toLex`). -/
def keyTup (e : MappingEntry) : String × String × String × String :=
  (e.Type', e.Principal, e.PolicyType, e.PolicyName)

theorem keyOf_eq_iff (x y : MappingEntry) : keyOf x = keyOf y ↔ keyTup x = keyTup y :=
  Iff.rfl

theorem entriesForPrincipal_perm {ps ps' : List Principal} (h : List.Perm ps ps')
    (p : Principal) :
    List.Perm (entriesForPrincipal ps p) (entriesForPrincipal ps' p) := by
  unfold entriesForPrincipal
  refine List.Perm.append (List.Perm.refl _) ?_
  unfold groupInheritedEntries
  split_ifs
  · refine List.Perm.flatMap_left p.group_member fun g _ => ?_
    exact h.flatMap_right _
  · exact List.Perm.refl _

theorem rawMapping_perm {ps ps' : List Principal} (h : List.Perm ps ps') :
    List.Perm (rawMapping ps) (rawMapping ps') := by
  unfold rawMapping
  exact (List.Perm.flatMap_left ps fun p _ => entriesForPrincipal_perm h p).trans
    (h.flatMap_right (entriesForPrincipal ps'))

/-- Two sorted lists that are permutations of each other and whose keys are
pairwise distinct are equal. -/
theorem eq_of_sorted_perm_distinct :
    ∀ (l₁ l₂ : List MappingEntry), List.Perm l₁ l₂ →
      List.Sorted entryLE l₁ → List.Sorted entryLE l₂ →
      l₁.Pairwise (fun x y => keyOf x ≠ keyOf y) → l₁ = l₂ := by
  intro l₁
  induction l₁ with
  | nil => intro l₂ h _ _ _; exact (h.symm.eq_nil).symm ▸ rfl
  | cons a t₁ ih =>
    intro l₂ h s₁ s₂ d₁
    cases l₂ with
    | nil => exact absurd h.eq_nil (by simp)
    | cons b t₂ =>
      have hab : a = b := by
        have ha2 : a ∈ b :: t₂ := h.subset (List.mem_cons_self a t₁)
        rcases List.mem_cons.1 ha2 with hab | ha2'
        · exact hab
        · have hba : entryLE b a := (List.sorted_cons.1 s₂).1 a ha2'
          have hb1 : b ∈ a :: t₁ := h.symm.subset (List.mem_cons_self b t₂)
          rcases List.mem_cons.1 hb1 with hba' | hb1'
          · exact hba'.symm
          · have hab' : entryLE a b := (List.sorted_cons.1 s₁).1 b hb1'
            have hkey : keyOf a = keyOf b := le_antisymm hab' hba
            have hne : keyOf a ≠ keyOf b :=
              (List.pairwise_cons.1 d₁).1 b hb1'
            exact absurd hkey hne
      subst hab
      have h' : List.Perm t₁ t₂ := h.cons_inv
      have := ih t₂ h' (List.sorted_cons.1 s₁).2 (List.sorted_cons.1 s₂).2
        (List.pairwise_cons.1 d₁).2
      rw [this]

/-- C5 counterexample: two distinct principals sharing name, type, policy type
and policy name (one AWS-managed, one customer-managed attachment) produce
entries with equal sort keys; swapping them in the input swaps the equally-keyed
rows of the (stable) sorted output, so the serialized mapping changes. -/
theorem claim_C5_counterexample :
    List.Perm
      [(⟨"u", "arn:1", "User", [], [⟨"P", "arn:aws:iam::aws:policy/P"⟩], [], [], [], ""⟩ :
          Principal),
        ⟨"u", "arn:2", "User", [], [⟨"P", "arn:aws:iam::123:policy/P"⟩], [], [], [], ""⟩]
      [⟨"u", "arn:2", "User", [], [⟨"P", "arn:aws:iam::123:policy/P"⟩], [], [], [], ""⟩,
        ⟨"u", "arn:1", "User", [], [⟨"P", "arn:aws:iam::aws:policy/P"⟩], [], [], [], ""⟩] ∧
    principalPolicyMapping
        [⟨"u", "arn:1", "User", [], [⟨"P", "arn:aws:iam::aws:policy/P"⟩], [], [], [], ""⟩,
          ⟨"u", "arn:2", "User", [], [⟨"P", "arn:aws:iam::123:policy/P"⟩], [], [], [], ""⟩] ≠
      principalPolicyMapping
        [⟨"u", "arn:2", "User", [], [⟨"P", "arn:aws:iam::123:policy/P"⟩], [], [], [], ""⟩,
          ⟨"u", "arn:1", "User", [], [⟨"P", "arn:aws:iam::aws:policy/P"⟩], [], [], [], ""⟩] := by
  constructor
  · exact List.Perm.swap _ _ _
  · have hk : keyOf ⟨"u", "User", "Managed", "AWS", "P", none⟩ =
        keyOf ⟨"u", "User", "Managed", "Customer", "P", none⟩ := rfl
    have hle1 : entryLE ⟨"u", "User", "Managed", "AWS", "P", none⟩
        ⟨"u", "User", "Managed", "Customer", "P", none⟩ := le_of_eq hk
    have hle2 : entryLE ⟨"u", "User", "Managed", "Customer", "P", none⟩
        ⟨"u", "User", "Managed", "AWS", "P", none⟩ := le_of_eq hk.symm
    have h1 : principalPolicyMapping
        [⟨"u", "arn:1", "User", [], [⟨"P", "arn:aws:iam::aws:policy/P"⟩], [], [], [], ""⟩,
          ⟨"u", "arn:2", "User", [], [⟨"P", "arn:aws:iam::123:policy/P"⟩], [], [], [], ""⟩] =
        [⟨"u", "User", "Managed", "AWS", "P", none⟩,
          ⟨"u", "User", "Managed", "Customer", "P", none⟩] := by
      show List.orderedInsert entryLE ⟨"u", "User", "Managed", "AWS", "P", none⟩
        (List.orderedInsert entryLE ⟨"u", "User", "Managed", "Customer", "P", none⟩ []) = _
      rw [List.orderedInsert, List.orderedInsert, if_pos hle1]
    have h2 : principalPolicyMapping
        [⟨"u", "arn:2", "User", [], [⟨"P", "arn:aws:iam::123:policy/P"⟩], [], [], [], ""⟩,
          ⟨"u", "arn:1", "User", [], [⟨"P", "arn:aws:iam::aws:policy/P"⟩], [], [], [], ""⟩] =
        [⟨"u", "User", "Managed", "Customer", "P", none⟩,
          ⟨"u", "User", "Managed", "AWS", "P", none⟩] := by
      show List.orderedInsert entryLE ⟨"u", "User", "Managed", "Customer", "P", none⟩
        (List.orderedInsert entryLE ⟨"u", "User", "Managed", "AWS", "P", none⟩ []) = _
      rw [List.orderedInsert, List.orderedInsert, if_pos hle2]
    rw [h1, h2]
    decide

/-- C5 (amended): the emitted mapping is always sorted by the key
`(Type, Principal, PolicyType, PolicyName)`; permuting the input principals
permutes the mapping's entries (same multiset), and yields the identical
serialized mapping provided no two raw entries share all four sort-key
components. -/
theorem claim_C5 (ps ps' : List Principal) :
    List.Sorted entryLE (principalPolicyMapping ps) ∧
    (List.Perm ps ps' →
      List.Perm (principalPolicyMapping ps) (principalPolicyMapping ps')) ∧
    (List.Perm ps ps' →
      (rawMapping ps).Pairwise (fun x y => keyTup x ≠ keyTup y) →
      principalPolicyMapping ps = principalPolicyMapping ps') := by
  refine ⟨List.sorted_insertionSort entryLE (rawMapping ps), fun h => ?_, fun h hd => ?_⟩
  · exact ((List.perm_insertionSort entryLE (rawMapping ps)).trans
      (rawMapping_perm h)).trans
      (List.perm_insertionSort entryLE (rawMapping ps')).symm
  · apply eq_of_sorted_perm_distinct
    · exact ((List.perm_insertionSort entryLE (rawMapping ps)).trans
        (rawMapping_perm h)).trans
        (List.perm_insertionSort entryLE (rawMapping ps')).symm
    · exact List.sorted_insertionSort entryLE (rawMapping ps)
    · exact List.sorted_insertionSort entryLE (rawMapping ps')
    · have hperm : List.Perm (rawMapping ps) (principalPolicyMapping ps) :=
        (List.perm_insertionSort entryLE (rawMapping ps)).symm
      exact hperm.pairwise_iff (fun hxy => Ne.symm hxy) |>.1
        (hd.imp fun hxy => fun hk => hxy ((keyOf_eq_iff _ _).1 hk))

/-- C5 witness: permuting two principals whose raw entries have distinct keys
leaves the serialized mapping unchanged. -/
theorem claim_C5_witness :
    principalPolicyMapping
        [⟨"u", "arn:1", "User", [], [⟨"P", "arn:aws:iam::aws:policy/P"⟩], [], [], [], ""⟩,
          ⟨"v", "arn:2", "User", [], [⟨"Q", "arn:aws:iam::123:policy/Q"⟩], [], [], [], ""⟩] =
      principalPolicyMapping
        [⟨"v", "arn:2", "User", [], [⟨"Q", "arn:aws:iam::123:policy/Q"⟩], [], [], [], ""⟩,
          ⟨"u", "arn:1", "User", [], [⟨"P", "arn:aws:iam::aws:policy/P"⟩], [], [], [], ""⟩] :=
  ((claim_C5
      [⟨"u", "arn:1", "User", [], [⟨"P", "arn:aws:iam::aws:policy/P"⟩], [], [], [], ""⟩,
        ⟨"v", "arn:2", "User", [], [⟨"Q", "arn:aws:iam::123:policy/Q"⟩], [], [], [], ""⟩]
      [⟨"v", "arn:2", "User", [], [⟨"Q", "arn:aws:iam::123:policy/Q"⟩], [], [], [], ""⟩,
        ⟨"u", "arn:1", "User", [], [⟨"P", "arn:aws:iam::aws:policy/P"⟩], [], [], [], ""⟩]).2.2)
    (List.Perm.swap _ _ _) (by decide)

/-! ## Idempotence of the scan (C6): member attachment touches nothing the
scan or the mapping builder reads -/

theorem attachMembers_name (d : List (String × List String)) (p : Principal) :
    (attachMembers d p).name = p.name := by
  unfold attachMembers; split <;> rfl

theorem attachMembers_type (d : List (String × List String)) (p : Principal) :
    (attachMembers d p).principal_type = p.principal_type := by
  unfold attachMembers; split <;> rfl

theorem attachMembers_arn (d : List (String × List String)) (p : Principal) :
    (attachMembers d p).arn = p.arn := by
  unfold attachMembers; split <;> rfl

theorem attachMembers_inline (d : List (String × List String)) (p : Principal) :
    (attachMembers d p).inline_principal_policies = p.inline_principal_policies := by
  unfold attachMembers; split <;> rfl

theorem attachMembers_attached (d : List (String × List String)) (p : Principal) :
    (attachMembers d p).attached_managed_policies = p.attached_managed_policies := by
  unfold attachMembers; split <;> rfl

theorem attachMembers_policy_list (d : List (String × List String)) (p : Principal) :
    (attachMembers d p).policy_list = p.policy_list := by
  unfold attachMembers; split <;> rfl

theorem attachMembers_group_member (d : List (String × List String)) (p : Principal) :
    (attachMembers d p).group_member = p.group_member := by
  unfold attachMembers; split <;> rfl

theorem attachMembers_assume (d : List (String × List String)) (p : Principal) :
    (attachMembers d p).assume_role_policy_document = p.assume_role_policy_document := by
  unfold attachMembers; split <;> rfl

/-- Member attachment does not change the findings a principal generates: the
only principals it modifies carry the dead tag "Groups", which matches none of
the Finding branches. -/
theorem scanOne_attach_inv (ex : Exclusions) (mo : Bool) (fs : Findings)
    (d : List (String × List String)) (p : Principal) :
    scanOnePrincipal ex mo fs (attachMembers d p) = scanOnePrincipal ex mo fs p := by
  by_cases htype : p.principal_type = "Groups"
  · unfold scanOnePrincipal
    rw [attachMembers_policy_list]
    apply List.foldl_ext
    intro fs' pol _
    unfold scanPrincipalPolicyStep
    rw [attachMembers_name, attachMembers_type, attachMembers_arn,
      attachMembers_attached, attachMembers_group_member, htype]
    rw [show (("Groups" : String) == "User") = false from rfl,
      show (("Groups" : String) == "Group") = false from rfl,
      show (("Groups" : String) == "Role") = false from rfl]
    simp
  · rw [attachMembers_of_ne d p htype]

theorem foldl_scanOne_attach (ex : Exclusions) (mo : Bool)
    (l : List Principal) (d : List (String × List String)) (fs : Findings) :
    List.foldl (scanOnePrincipal ex mo) fs (l.map (attachMembers d)) =
      List.foldl (scanOnePrincipal ex mo) fs l := by
  rw [List.foldl_map]
  exact List.foldl_ext _ _ fs fun fs' p _ => scanOne_attach_inv ex mo fs' d p

/-- The five fields the mapping builder reads. -/
def proj5 (p : Principal) :
    String × String × List InlinePolicy × List AttachedManagedPolicy × List String :=
  (p.name, p.principal_type, p.inline_principal_policies,
    p.attached_managed_policies, p.group_member)

theorem proj5_attach (d : List (String × List String)) (p : Principal) :
    proj5 (attachMembers d p) = proj5 p := by
  unfold proj5
  rw [attachMembers_name, attachMembers_type, attachMembers_inline,
    attachMembers_attached, attachMembers_group_member]

theorem ownInline_congr {p q : Principal} (h : proj5 p = proj5 q) :
    ownInlineEntries p = ownInlineEntries q := by
  obtain ⟨h1, h2, h3, h4, h5⟩ := (by
    simpa [proj5, Prod.ext_iff] using h :
      p.name = q.name ∧ p.principal_type = q.principal_type ∧
        p.inline_principal_policies = q.inline_principal_policies ∧
        p.attached_managed_policies = q.attached_managed_policies ∧
        p.group_member = q.group_member)
  unfold ownInlineEntries
  rw [h1, h2, h3]

theorem ownManaged_congr {p q : Principal} (h : proj5 p = proj5 q) :
    ownManagedEntries p = ownManagedEntries q := by
  obtain ⟨h1, h2, h3, h4, h5⟩ := (by
    simpa [proj5, Prod.ext_iff] using h :
      p.name = q.name ∧ p.principal_type = q.principal_type ∧
        p.inline_principal_policies = q.inline_principal_policies ∧
        p.attached_managed_policies = q.attached_managed_policies ∧
        p.group_member = q.group_member)
  unfold ownManagedEntries
  rw [h1, h2, h4]

theorem inheritedFromGroup_congr {p q x y : Principal} (hpq : proj5 p = proj5 q)
    (hxy : proj5 x = proj5 y) : inheritedFromGroup p x = inheritedFromGroup q y := by
  obtain ⟨h1, h2, h3, h4, h5⟩ := (by
    simpa [proj5, Prod.ext_iff] using hpq :
      p.name = q.name ∧ p.principal_type = q.principal_type ∧
        p.inline_principal_policies = q.inline_principal_policies ∧
        p.attached_managed_policies = q.attached_managed_policies ∧
        p.group_member = q.group_member)
  obtain ⟨g1, g2, g3, g4, g5⟩ := (by
    simpa [proj5, Prod.ext_iff] using hxy :
      x.name = y.name ∧ x.principal_type = y.principal_type ∧
        x.inline_principal_policies = y.inline_principal_policies ∧
        x.attached_managed_policies = y.attached_managed_policies ∧
        x.group_member = y.group_member)
  unfold inheritedFromGroup
  rw [h1, h2, h5, g3, g4]

theorem innerScan_congr (p q : Principal) (hpq : proj5 p = proj5 q) (g : String) :
    ∀ (ps ps' : List Principal), ps.map proj5 = ps'.map proj5 →
      (ps.flatMap fun x =>
          if x.principal_type == "Group" && x.name == g then inheritedFromGroup p x
          else []) =
        ps'.flatMap fun x =>
          if x.principal_type == "Group" && x.name == g then inheritedFromGroup q x
          else [] := by
  intro ps
  induction ps with
  | nil =>
    intro ps' hmap
    cases ps' with
    | nil => rfl
    | cons y ys => exact absurd hmap (by simp)
  | cons x xs ih =>
    intro ps' hmap
    cases ps' with
    | nil => exact absurd hmap (by simp)
    | cons y ys =>
      rw [List.map_cons, List.map_cons] at hmap
      obtain ⟨hxy, htl⟩ := (by simpa using hmap :
        proj5 x = proj5 y ∧ xs.map proj5 = ys.map proj5)
      rw [List.flatMap_cons, List.flatMap_cons, ih ys htl]
      obtain ⟨g1, g2, -, -, -⟩ := (by
        simpa [proj5, Prod.ext_iff] using hxy :
          x.name = y.name ∧ x.principal_type = y.principal_type ∧
            x.inline_principal_policies = y.inline_principal_policies ∧
            x.attached_managed_policies = y.attached_managed_policies ∧
            x.group_member = y.group_member)
      rw [g1, g2]
      by_cases hcond : (y.principal_type == "Group" && y.name == g) = true
      · rw [if_pos hcond, if_pos hcond, inheritedFromGroup_congr hpq hxy]
      · rw [if_neg hcond, if_neg hcond]

theorem groupInherited_congr {ps ps' : List Principal}
    (hmap : ps.map proj5 = ps'.map proj5) {p q : Principal} (hpq : proj5 p = proj5 q) :
    groupInheritedEntries ps p = groupInheritedEntries ps' q := by
  obtain ⟨h1, h2, h3, h4, h5⟩ := (by
    simpa [proj5, Prod.ext_iff] using hpq :
      p.name = q.name ∧ p.principal_type = q.principal_type ∧
        p.inline_principal_policies = q.inline_principal_policies ∧
        p.attached_managed_policies = q.attached_managed_policies ∧
        p.group_member = q.group_member)
  unfold groupInheritedEntries
  rw [h2, h5]
  by_cases hcond : (q.principal_type == "User") = true
  · rw [if_pos hcond, if_pos hcond]
    exact List.flatMap_congr fun g _ => innerScan_congr p q hpq g ps ps' hmap
  · rw [if_neg hcond, if_neg hcond]

theorem entriesFor_congr {ps ps' : List Principal}
    (hmap : ps.map proj5 = ps'.map proj5) {p q : Principal} (hpq : proj5 p = proj5 q) :
    entriesForPrincipal ps p = entriesForPrincipal ps' q := by
  unfold entriesForPrincipal
  rw [ownInline_congr hpq, ownManaged_congr hpq, groupInherited_congr hmap hpq]

theorem flatMap_entriesFor_congr {ps ps' : List Principal}
    (hmap : ps.map proj5 = ps'.map proj5) :
    ∀ (l l' : List Principal), l.map proj5 = l'.map proj5 →
      l.flatMap (entriesForPrincipal ps) = l'.flatMap (entriesForPrincipal ps') := by
  intro l
  induction l with
  | nil =>
    intro l' hl
    cases l' with
    | nil => rfl
    | cons y ys => exact absurd hl (by simp)
  | cons x xs ih =>
    intro l' hl
    cases l' with
    | nil => exact absurd hl (by simp)
    | cons y ys =>
      rw [List.map_cons, List.map_cons] at hl
      obtain ⟨hxy, htl⟩ := (by simpa using hl :
        proj5 x = proj5 y ∧ xs.map proj5 = ys.map proj5)
      rw [List.flatMap_cons, List.flatMap_cons, ih ys htl, entriesFor_congr hmap hxy]

theorem rawMapping_congr (ps ps' : List Principal)
    (hmap : ps.map proj5 = ps'.map proj5) : rawMapping ps = rawMapping ps' :=
  flatMap_entriesFor_congr hmap ps ps' hmap

theorem map_proj5_attach (l : List Principal) (d : List (String × List String)) :
    (l.map (attachMembers d)).map proj5 = l.map proj5 := by
  rw [List.map_map]
  exact List.map_congr_left fun p _ => proj5_attach d p

theorem resolveMembers_proj5 (l : List Principal) :
    (resolveMembers l).map proj5 = l.map proj5 :=
  map_proj5_attach l (buildGroupsDict l)

theorem scanFold_resolve (ex : Exclusions) (mo : Bool) (fs : Findings)
    (l : List Principal) :
    List.foldl (scanOnePrincipal ex mo) fs (resolveMembers l) =
      List.foldl (scanOnePrincipal ex mo) fs l :=
  foldl_scanOne_attach ex mo l (buildGroupsDict l) fs

theorem mapping_resolve (u g r : List Principal) :
    principalPolicyMapping (resolveMembers u ++ resolveMembers g ++ resolveMembers r) =
      principalPolicyMapping (u ++ g ++ r) := by
  unfold principalPolicyMapping
  rw [rawMapping_congr (resolveMembers u ++ resolveMembers g ++ resolveMembers r)
    (u ++ g ++ r) (by simp only [List.map_append, resolveMembers_proj5])]

/-- The serialized output of a full scan, as a function of the four input
blocks only (resolution collapsed away). -/
def pureOut (pol : List Policy) (u g r : List Principal) (ex : Exclusions) (mo : Bool) :
    List PolicyFinding × List UserFinding × List GroupFinding × List RoleFinding ×
      List MappingEntry :=
  ((pol.foldl (scanPolicyStep ex mo)
    { List.foldl (scanOnePrincipal ex mo)
        (List.foldl (scanOnePrincipal ex mo)
          (List.foldl (scanOnePrincipal ex mo) emptyFindings u) g) r with
      principal_policy_mapping := principalPolicyMapping (u ++ g ++ r) })).json

theorem out_eq_pureOut (b : AuthorizationDetails) (ex : Exclusions) (mo : Bool) :
    (missingResourceConstraints b ex mo).2 =
      pureOut b.policies b.user_detail_list b.group_detail_list b.role_detail_list
        ex mo := by
  unfold missingResourceConstraints pureOut scanPolicyDetails
  simp only [scanPrincipalTypeDetails, AuthorizationDetails.principalPolicyMapping,
    principalsOf]
  rw [scanFold_resolve, scanFold_resolve, scanFold_resolve, mapping_resolve]

/-- C6: running `missing_resource_constraints` twice in succession with the same
arguments returns the identical serialized output: the aggregator is rebuilt
from scratch, and the only state the first run changes (the dead "Groups"
member attachment) is invisible to the findings and to the mapping builder. -/
theorem claim_C6 (a : AuthorizationDetails) (ex : Exclusions) (mo : Bool) :
    (missingResourceConstraints ((missingResourceConstraints a ex mo).1) ex mo).2 =
      (missingResourceConstraints a ex mo).2 := by
  rw [out_eq_pureOut, out_eq_pureOut]
  show pureOut a.policies (resolveMembers a.user_detail_list)
      (resolveMembers a.group_detail_list) (resolveMembers a.role_detail_list) ex mo =
    pureOut a.policies a.user_detail_list a.group_detail_list a.role_detail_list ex mo
  unfold pureOut
  rw [scanFold_resolve, scanFold_resolve, scanFold_resolve, mapping_resolve]

/-! ## Case-sensitive group lookup in the mapping builder (C10) -/

theorem mem_own_gm (p : Principal) (e : MappingEntry)
    (he : e ∈ ownInlineEntries p ++ ownManagedEntries p) : e.GroupMembership = none := by
  rcases List.mem_append.1 he with h | h
  · obtain ⟨ip, -, hip⟩ := List.mem_map.1 h
    rw [← hip]
  · obtain ⟨ap, -, hap⟩ := List.mem_map.1 h
    rw [← hap]

theorem mem_inheritedFromGroup (p q : Principal) (e : MappingEntry)
    (he : e ∈ inheritedFromGroup p q) :
    e.Principal = p.name ∧ e.GroupMembership = some p.group_member := by
  rcases List.mem_append.1 he with h | h
  · obtain ⟨ip, -, hip⟩ := List.mem_map.1 h
    rw [← hip]
    exact ⟨rfl, rfl⟩
  · obtain ⟨ap, -, hap⟩ := List.mem_map.1 h
    rw [← hap]
    exact ⟨rfl, rfl⟩

theorem mem_groupInherited (ps : List Principal) (p : Principal) (e : MappingEntry)
    (he : e ∈ groupInheritedEntries ps p) :
    ∃ g ∈ p.group_member, ∃ q ∈ ps,
      (q.principal_type == "Group" && q.name == g) = true ∧
        e ∈ inheritedFromGroup p q := by
  unfold groupInheritedEntries at he
  split_ifs at he with h
  · rw [List.mem_flatMap] at he
    obtain ⟨g, hg, he⟩ := he
    rw [List.mem_flatMap] at he
    obtain ⟨q, hq, he⟩ := he
    split_ifs at he with hcond
    · exact ⟨g, hg, q, hq, hcond, he⟩
    · simp at he
  · simp at he

/-- C10: the builder locates a user's groups by case-sensitive exact name
equality; a user all of whose declared group names differ from every Group
principal's name (for example only in letter case) gets no group-inherited
mapping entries at all — unlike the case-insensitive matching the membership
resolver attempts. -/
theorem claim_C10 (ps : List Principal) (u : Principal) (hu : u ∈ ps)
    (huniq : ∀ p ∈ ps, p.name = u.name → p = u)
    (hng : ∀ g ∈ u.group_member, ∀ q ∈ ps, q.principal_type = "Group" → q.name ≠ g) :
    (principalPolicyMapping ps).filter
      (fun e => e.Principal == u.name && e.GroupMembership.isSome) = [] := by
  rw [List.filter_eq_nil_iff]
  intro e he
  have hraw : e ∈ rawMapping ps :=
    (List.perm_insertionSort entryLE (rawMapping ps)).mem_iff.1 he
  rw [rawMapping, List.mem_flatMap] at hraw
  obtain ⟨p, hp, hep⟩ := hraw
  unfold entriesForPrincipal at hep
  rcases List.mem_append.1 hep with hown | hinh
  · intro hcon
    rw [Bool.and_eq_true] at hcon
    rw [mem_own_gm p e hown] at hcon
    simp at hcon
  · intro hcon
    rw [Bool.and_eq_true, beq_iff_eq] at hcon
    obtain ⟨hpn, -⟩ := hcon
    obtain ⟨g, hg, q, hq, hcond, hef⟩ := mem_groupInherited ps p e hinh
    obtain ⟨hprin, -⟩ := mem_inheritedFromGroup p q e hef
    have hpu : p = u := huniq p hp (hprin ▸ hpn)
    subst hpu
    rw [Bool.and_eq_true, beq_iff_eq, beq_iff_eq] at hcond
    exact hng g hg q hq hcond.1 hcond.2

/-- C10 witness: user "alice" declares membership in "admins" while the group
principal is named "Admins" (same name up to case, with an inline policy that
a case-insensitive lookup would have inherited); no group-inherited entry for
alice is emitted. -/
theorem claim_C10_witness :
    (principalPolicyMapping
        [⟨"alice", "arn:alice", "User", [], [], [], ["admins"], [], ""⟩,
          ⟨"Admins", "arn:admins", "Group", [⟨"GP"⟩], [], [], [], [], ""⟩]).filter
      (fun e => e.Principal == "alice" && e.GroupMembership.isSome) = [] :=
  claim_C10
    [⟨"alice", "arn:alice", "User", [], [], [], ["admins"], [], ""⟩,
      ⟨"Admins", "arn:admins", "Group", [⟨"GP"⟩], [], [], [], [], ""⟩]
    ⟨"alice", "arn:alice", "User", [], [], [], ["admins"], [], ""⟩
    (by decide) (by decide) (by decide)

end Cloudsplaining
